import Mathlib

/-!
Shallow embedding of the skills-analysis scripts of repository `bcgov/dss-common`
(`src/skills_analysis/devops_skills_analysis.py`, `utilities.py`, `process.py`).

Python strings are modelled as `List Char` (`PyStr`), Python dicts as association
lists in insertion order (`Dict`), Python exceptions as `Except PyErr`, and the
module-level global dicts (`COMMON_COL_MAPPING`, `CUR_COL_MAPPING`,
`FUT_COL_MAPPING`, `FUT_COLS`) as explicit state threaded through the functions.
-/

/-- Python `str` modelled as a list of characters. -/
abbrev PyStr := List Char

/-- The Python exceptions the embedded code can raise.
`keyError` is `dict[k]` with a missing key, `typeError` is an operation on an
argument of the wrong type (such as `row[None]` or `len()` with no argument),
`indexError` is `list[i]` with `i` out of range. -/
inductive PyErr where
  | keyError
  | typeError
  | indexError
deriving DecidableEq, Repr

/-- A Python dict, modelled as an association list in insertion order. -/
abbrev Dict (β : Type) := List (PyStr × β)

/-- Python `d[k]` as a read: the value stored for the first (unique, for a real
Python dict) occurrence of key `k`, or `none` when the key is absent. -/
def dictGet {β : Type} : Dict β → PyStr → Option β
  | [], _ => none
  | (k, v) :: rest, key => if key = k then some v else dictGet rest key

/-- Mutation of the value stored under an existing key `k` (Python updates the
dict entry in place, keeping its position). Keys are left unchanged. -/
def dictUpdate {β : Type} : Dict β → PyStr → (β → β) → Dict β
  | [], _, _ => []
  | (k, v) :: rest, key, f =>
    if key = k then (k, f v) :: rest else (k, v) :: dictUpdate rest key f

/-- Python `list[i]`: `IndexError` when `i` is out of range (header indices are
produced by `enumerate`, so they are never negative). -/
def pyIndex (row : List PyStr) (i : Nat) : Except PyErr PyStr :=
  match row.get? i with
  | some v => .ok v
  | none => .error .indexError

/-- Python `row[idx]` where `idx` came from a column table whose entries are
initialised to `None`: indexing a list with `None` is a `TypeError`. -/
def noneTypeErr : Option Nat → Except PyErr Nat
  | some i => .ok i
  | none => .error .typeError

/-! ## devops_skills_analysis.py: constants and `clean_subcategory` -/

/-- `OTHER_COL` from devops_skills_analysis.py line 23. -/
def OTHER_COL : List PyStr :=
  ["Name".data, "Classification Level".data, "What team are you on?".data]

/-- The whitespace characters removed by Python `str.strip()` (the ASCII ones;
Python also strips other Unicode whitespace, which changes nothing in the
lemmas below, all uniform in this predicate). -/
def isPySpace (c : Char) : Bool :=
  c = ' ' || c = '\t' || c = '\n' || c = '\r' || c = '\x0b' || c = '\x0c'

/-- Python `s.strip()` on the right: drop trailing whitespace. -/
def rstrip (l : PyStr) : PyStr := (l.reverse.dropWhile isPySpace).reverse

/-- Python `s.strip()`: drop leading then trailing whitespace. -/
def pyStrip (l : PyStr) : PyStr := rstrip (l.dropWhile isPySpace)

/-- `clean_subcategory` from devops_skills_analysis.py lines 34-50: when the
string contains `'('`, keep only what is left of the first `'('`
(`s.split("(")[0]`), then `strip()` the result. -/
def clean_subcategory (s : PyStr) : PyStr :=
  if '(' ∈ s then pyStrip (s.takeWhile (fun c => c ≠ '(')) else pyStrip s

/-! ## `str_to_subcategory_list` -/

/-- Python `s.split(";")`: split at every `';'`; empty fragments are kept
(so `"".split(";") = [""]` and `"a;;b".split(";") = ["a","","b"]`). -/
def pySplitSemi : PyStr → List PyStr
  | [] => [[]]
  | c :: rest =>
    match pySplitSemi rest with
    | [] => [[]]
    | h :: t => if c = ';' then [] :: h :: t else (c :: h) :: t

/-- The `for ele in in_list` loop of `str_to_subcategory_list`
(devops_skills_analysis.py lines 128-131): skip fragments that are exactly the
empty string, clean every other fragment and append it. -/
def subcatLoop : List PyStr → List PyStr
  | [] => []
  | e :: rest => if e = [] then subcatLoop rest else clean_subcategory e :: subcatLoop rest

/-- `str_to_subcategory_list` from devops_skills_analysis.py lines 115-133. -/
def str_to_subcategory_list (s : PyStr) : List PyStr :=
  if s = [] then [] else subcatLoop (pySplitSemi s)

/-! ## Lemmas about stripping and cleaning -/

theorem dropWhile_idem (p : Char → Bool) (l : PyStr) :
    (l.dropWhile p).dropWhile p = l.dropWhile p := by
  induction l with
  | nil => rfl
  | cons a t ih =>
    by_cases h : p a
    · simp [List.dropWhile, h, ih]
    · simp [List.dropWhile, h]

theorem dropWhile_append_singleton (p : Char → Bool) (a : Char) (h : p a = false)
    (xs : PyStr) : (xs ++ [a]).dropWhile p = xs.dropWhile p ++ [a] := by
  induction xs with
  | nil => simp [List.dropWhile, h]
  | cons x xs ih =>
    by_cases hx : p x
    · simp [List.dropWhile, hx, ih]
    · simp [List.dropWhile, hx]

theorem head_not_space_of_dropWhile_eq_self (p : Char → Bool) (a : Char) (t : PyStr)
    (h : (a :: t).dropWhile p = a :: t) : p a = false := by
  by_contra hpa
  have hpa' : p a = true := by
    cases hb : p a with
    | false => exact absurd hb hpa
    | true => rfl
  rw [List.dropWhile_cons_of_pos hpa'] at h
  have hl := congrArg List.length h
  have hle : (t.dropWhile p).length ≤ t.length := (List.dropWhile_sublist p (l := t)).length_le
  simp at hl
  omega

theorem rstrip_cons_of_not_space (a : Char) (t : PyStr) (h : isPySpace a = false) :
    rstrip (a :: t) = a :: rstrip t := by
  unfold rstrip
  rw [List.reverse_cons, dropWhile_append_singleton isPySpace a h, List.reverse_append]
  rfl

theorem lstrip_rstrip (l : PyStr) (h : l.dropWhile isPySpace = l) :
    (rstrip l).dropWhile isPySpace = rstrip l := by
  cases l with
  | nil => rfl
  | cons a t =>
    have ha : isPySpace a = false := head_not_space_of_dropWhile_eq_self isPySpace a t h
    rw [rstrip_cons_of_not_space a t ha, List.dropWhile_cons_of_neg (by simp [ha])]

theorem rstrip_idem (l : PyStr) : rstrip (rstrip l) = rstrip l := by
  unfold rstrip
  rw [List.reverse_reverse, dropWhile_idem]

theorem pyStrip_idem (l : PyStr) : pyStrip (pyStrip l) = pyStrip l := by
  unfold pyStrip
  rw [lstrip_rstrip (l.dropWhile isPySpace) (dropWhile_idem isPySpace l), rstrip_idem]

theorem mem_rstrip {c : Char} {l : PyStr} (h : c ∈ rstrip l) : c ∈ l := by
  unfold rstrip at h
  rw [List.mem_reverse] at h
  have := (List.dropWhile_sublist isPySpace (l := l.reverse)).subset h
  rwa [List.mem_reverse] at this

theorem mem_pyStrip {c : Char} {l : PyStr} (h : c ∈ pyStrip l) : c ∈ l :=
  (List.dropWhile_sublist isPySpace (l := l)).subset (mem_rstrip h)

theorem not_paren_mem_takeWhile (s : PyStr) :
    '(' ∉ s.takeWhile (fun c => c ≠ '(') := by
  intro hmem
  have := List.mem_takeWhile_imp hmem
  simp at this

theorem not_paren_mem_clean (s : PyStr) : '(' ∉ clean_subcategory s := by
  intro hmem
  unfold clean_subcategory at hmem
  by_cases h : '(' ∈ s
  · rw [if_pos h] at hmem
    exact not_paren_mem_takeWhile s (mem_pyStrip hmem)
  · rw [if_neg h] at hmem
    exact h (mem_pyStrip hmem)

/-- C8: subcategory cleaning is idempotent: for every string `x`,
`clean_subcategory (clean_subcategory x) = clean_subcategory x`. -/
theorem clean_subcategory_idempotent (x : PyStr) :
    clean_subcategory (clean_subcategory x) = clean_subcategory x := by
  have hparen : '(' ∉ clean_subcategory x := not_paren_mem_clean x
  have hstrip : ∃ z, clean_subcategory x = pyStrip z := by
    unfold clean_subcategory
    by_cases h : '(' ∈ x
    · exact ⟨x.takeWhile (fun c => c ≠ '('), if_pos h⟩
    · exact ⟨x, if_neg h⟩
  obtain ⟨z, hz⟩ := hstrip
  rw [hz] at hparen ⊢
  unfold clean_subcategory
  rw [if_neg hparen, pyStrip_idem]

/-! ## C10: `str_to_subcategory_list` drops only exactly-empty fragments -/

theorem subcatLoop_eq_filter_map (l : List PyStr) :
    subcatLoop l = (l.filter (fun e => e ≠ [])).map clean_subcategory := by
  induction l with
  | nil => rfl
  | cons e rest ih =>
    by_cases h : e = []
    · simp [subcatLoop, h, ih]
    · simp [subcatLoop, h, ih, List.filter_cons]

/-- C10: a semicolon-delimited fragment that is non-empty but whose cleaned form
is empty (for example a fragment that is only whitespace or only a
parenthetical) yields an empty-string element in the list returned by
`str_to_subcategory_list` rather than being dropped; only fragments that are
exactly empty before cleaning are dropped, so the output has one element per
non-empty fragment. -/
theorem str_to_subcategory_list_keeps_cleaned_empty (s f : PyStr)
    (hf : f ∈ pySplitSemi s) (hne : f ≠ []) (hclean : clean_subcategory f = []) :
    [] ∈ str_to_subcategory_list s ∧
      (str_to_subcategory_list s).length =
        ((pySplitSemi s).filter (fun e => e ≠ [])).length := by
  have hs : s ≠ [] := by
    intro h
    subst h
    simp [pySplitSemi] at hf
    exact hne hf
  unfold str_to_subcategory_list
  rw [if_neg hs, subcatLoop_eq_filter_map]
  constructor
  · have hmem : clean_subcategory f ∈
        ((pySplitSemi s).filter (fun e => e ≠ [])).map clean_subcategory :=
      List.mem_map_of_mem clean_subcategory (List.mem_filter.mpr ⟨hf, by simp [hne]⟩)
    rwa [hclean] at hmem
  · exact List.length_map _ _

/-- Witness for C10 at the concrete input `" (example);Terraform"`: the first
fragment is non-empty, cleans to the empty string, and an empty string indeed
appears in the output list. -/
theorem str_to_subcategory_list_keeps_cleaned_empty_witness :
    [] ∈ str_to_subcategory_list " (example);Terraform".data ∧
      (str_to_subcategory_list " (example);Terraform".data).length =
        ((pySplitSemi " (example);Terraform".data).filter (fun e => e ≠ [])).length :=
  str_to_subcategory_list_keeps_cleaned_empty " (example);Terraform".data
    " (example)".data (by decide) (by decide) (by decide)

/-! ## The four header regular expressions

Each survey-header pattern in devops_skills_analysis.py is anchored
(`^`...`$`), uses `.` for an arbitrary non-newline character and greedy `(.*)`
capture groups, and is run with `re.search` (no MULTILINE, no DOTALL).  Because
every template is `literal` `.` (captures and literals) with all literals free
of newlines, a match must cover the whole string and the string must be
newline-free; `$` additionally accepts a position just before one final
newline, handled by `withDollarNL`. -/

/-- The prefix literal of the `use` pattern (devops_skills_analysis.py line 82). -/
def usePre : PyStr := "Which".data

/-- The suffix literal of the `use` pattern (after `(.*).`). -/
def useSuf : PyStr :=
  "skills would you like to use in your day-to-day work, or feel are underused?".data

/-- The prefix literal of the `learn` pattern (line 84). -/
def learnPre : PyStr := "Are there".data

/-- The suffix literal of the `learn` pattern (after `(.*).`). -/
def learnSuf : PyStr :=
  "skills you are interested in learning or continuing to develop?".data

/-- The prefix literal of the `self` pattern (line 247). -/
def selfPre : PyStr :=
  "How would you describe your current experience or comfort level with".data

/-- The literal `\?\.` between the two capture groups of the `self` pattern. -/
def selfMid : PyStr := "?.".data

/-- The prefix literal of the `team` pattern (lines 248-249). -/
def teamPre : PyStr := "Based on what you know today, what level of".data

/-- The literal between the two capture groups of the `team` pattern:
`skills do you think your team will need over the next 12 months\?\.`. -/
def teamMid : PyStr :=
  "skills do you think your team will need over the next 12 months?.".data

/-- Full match of `^PRE.(.*).SUF$` against a newline-free string: the string
must be `PRE`, one character, the capture, one character, `SUF`; the capture's
length is forced, so the greedy group is unambiguous. -/
def matchFixedCore (pre suf s : PyStr) : Option PyStr :=
  if s.contains '\n' then none
  else if s.take pre.length = pre ∧ pre.length + 2 + suf.length ≤ s.length ∧
      s.drop (s.length - suf.length) = suf then
    some ((s.drop (pre.length + 1)).take (s.length - suf.length - (pre.length + 2)))
  else none

/-- Rightmost decomposition `s = before ++ M ++ after`: the greedy first `(.*)`
makes the regex engine pick the last occurrence of the literal `M`. -/
def splitLastOcc (M : PyStr) : PyStr → Option (PyStr × PyStr)
  | [] => if M = [] then some ([], []) else none
  | c :: rest =>
    match splitLastOcc M rest with
    | some (l, r) => some (c :: l, r)
    | none =>
      if (c :: rest).take M.length = M then some ([], (c :: rest).drop M.length)
      else none

/-- Full match of `^PRE.(.*)?\.(.*)$` (the `self` shape) against a newline-free
string: prefix, one character, then the rightmost `"?."` splits the two
captures. -/
def matchSelfCore (s : PyStr) : Option (PyStr × PyStr) :=
  if s.contains '\n' then none
  else if s.take selfPre.length = selfPre then
    splitLastOcc selfMid (s.drop (selfPre.length + 1))
  else none

/-- Full match of `^PRE.(.*).MID(.*)$` (the `team` shape): prefix, one
character, first capture, one character, the literal `teamMid`, second capture;
the greedy first group picks the rightmost occurrence of `teamMid` that leaves
at least one character in front of it for the `.`. -/
def matchTeamCore (s : PyStr) : Option (PyStr × PyStr) :=
  if s.contains '\n' then none
  else if s.take teamPre.length = teamPre then
    match splitLastOcc teamMid (s.drop (teamPre.length + 1)) with
    | some (l, r) => if l = [] then none else some (l.dropLast, r)
    | none => none
  else none

/-- Python's `$` also matches just before a newline that ends the string. -/
def withDollarNL {α : Type} (core : PyStr → Option α) (s : PyStr) : Option α :=
  match core s with
  | some x => some x
  | none => if s.getLast? = some '\n' then core s.dropLast else none

/-- `re.search(use, col)` of devops_skills_analysis.py lines 82-83, returning
the category capture group. -/
def matchUse (s : PyStr) : Option PyStr := withDollarNL (matchFixedCore usePre useSuf) s

/-- `re.search(learn, col)` of line 84, returning the category capture group. -/
def matchLearn (s : PyStr) : Option PyStr := withDollarNL (matchFixedCore learnPre learnSuf) s

/-- `re.search(self, col)` of line 247, returning the (category, subcategory)
capture groups. -/
def matchSelf (s : PyStr) : Option (PyStr × PyStr) := withDollarNL matchSelfCore s

/-- `re.search(team, col)` of lines 248-249, returning the (category,
subcategory) capture groups. -/
def matchTeam (s : PyStr) : Option (PyStr × PyStr) := withDollarNL matchTeamCore s

/-! ## `set_common_headers` and the two header matchers -/

/-- `set_common_headers` from devops_skills_analysis.py lines 52-65.  The guard
is Python's `if key not in COMMON_COL_MAPPING.keys() and index:`, where the
second conjunct is the truthiness of the integer `index`, i.e. `index ≠ 0`. -/
def set_common_headers (m : Dict Nat) (key : PyStr) (index : Nat) : Dict Nat :=
  if dictGet m key = none ∧ index ≠ 0 then m ++ [(key, index)] else m

/-- The global state written by `set_fut_headers`: `FUT_COL_MAPPING`
(category → USE/LEARN column), `FUT_COLS` (category → subcategory → counts)
and `COMMON_COL_MAPPING`. -/
structure FutState where
  futColMapping : Dict (Option Nat × Option Nat)
  futCols : Dict (Dict (Nat × Nat))
  commonColMapping : Dict Nat
deriving DecidableEq, Repr

/-- The initialisation loop of `set_fut_headers` (lines 86-90): every mapping
category starts with `USE = None, LEARN = None`. -/
def initFutColMapping (mapping : Dict (List PyStr)) : Dict (Option Nat × Option Nat) :=
  mapping.map (fun p => (p.1, (none, none)))

/-- The initialisation loop of `set_fut_headers` (lines 91-96): every mapping
(category, subcategory) starts with counts `USE = 0, LEARN = 0`. -/
def initFutCols (mapping : Dict (List PyStr)) : Dict (Dict (Nat × Nat)) :=
  mapping.map (fun p => (p.1, p.2.map (fun s => (s, (0, 0)))))


/-- The `if use_match:` block of `set_fut_headers` (lines 104-108), applied to
the result of `re.search(use, col)`: on a match,
`FUT_COL_MAPPING[match_category]["USE"] = index` raises `KeyError` when the
stripped category is not a key of `FUT_COL_MAPPING`. -/
def futUseStep (st : FutState) (index : Nat) : Option PyStr → Except PyErr FutState
  | none => .ok st
  | some cap =>
    match dictGet st.futColMapping (pyStrip cap) with
    | some _ =>
      .ok { st with futColMapping :=
              dictUpdate st.futColMapping (pyStrip cap) (fun p => (some index, p.2)) }
    | none => .error .keyError

/-- The `if learn_match:` block of `set_fut_headers` (lines 109-113). -/
def futLearnStep (st : FutState) (index : Nat) : Option PyStr → Except PyErr FutState
  | none => .ok st
  | some cap =>
    match dictGet st.futColMapping (pyStrip cap) with
    | some _ =>
      .ok { st with futColMapping :=
              dictUpdate st.futColMapping (pyStrip cap) (fun p => (p.1, some index)) }
    | none => .error .keyError

/-- One iteration of the header loop of `set_fut_headers` (lines 98-113).  A
cell equal to one of `OTHER_COL` goes to `set_common_headers`
(`OTHER_COL[OTHER_COL.index(col)]` is `col` itself); otherwise the `use` and
then the `learn` block run in order, an exception in the first aborting the
iteration. -/
def futHandleCell (st : FutState) (index : Nat) (col : PyStr) : Except PyErr FutState :=
  if col ∈ OTHER_COL then
    .ok { st with commonColMapping := set_common_headers st.commonColMapping col index }
  else
    match futUseStep st index (matchUse col) with
    | .error e => .error e
    | .ok st1 => futLearnStep st1 index (matchLearn col)

/-- The `for index, col in enumerate(row)` loop of `set_fut_headers`. -/
def futFold (st : FutState) (index : Nat) : List PyStr → Except PyErr FutState
  | [] => .ok st
  | c :: cs =>
    match futHandleCell st index c with
    | .error e => .error e
    | .ok st' => futFold st' (index + 1) cs

/-- `set_fut_headers` from devops_skills_analysis.py lines 68-113.
`common0` is the content of the global `COMMON_COL_MAPPING` when the call
starts (empty at the start of a run). -/
def set_fut_headers (common0 : Dict Nat) (row : List PyStr) (mapping : Dict (List PyStr)) :
    Except PyErr FutState :=
  futFold { futColMapping := initFutColMapping mapping,
            futCols := initFutCols mapping,
            commonColMapping := common0 } 0 row

/-- The global state written by `set_cur_headers`: `CUR_COL_MAPPING`
(category → subcategory → SELF/TEAM column) and `COMMON_COL_MAPPING`. -/
structure CurState where
  curColMapping : Dict (Dict (Option Nat × Option Nat))
  commonColMapping : Dict Nat
deriving DecidableEq, Repr

/-- The initialisation loop of `set_cur_headers` (lines 252-258): every mapping
(category, subcategory) pair starts with `SELF = None, TEAM = None`. -/
def initCurColMapping (mapping : Dict (List PyStr)) : Dict (Dict (Option Nat × Option Nat)) :=
  mapping.map (fun p => (p.1, p.2.map (fun s => (s, ((none : Option Nat), (none : Option Nat))))))

/-- `CUR_COL_MAPPING[match_category][match_subcategory][...] = index`: a
`KeyError` when the category, or the subcategory within it, is not present. -/
def curSetIndex (d : Dict (Dict (Option Nat × Option Nat))) (cat sub : PyStr)
    (isSelf : Bool) (i : Nat) : Except PyErr (Dict (Dict (Option Nat × Option Nat))) :=
  match dictGet d cat with
  | none => .error .keyError
  | some subs =>
    match dictGet subs sub with
    | none => .error .keyError
    | some _ =>
      .ok (dictUpdate d cat (fun sd =>
        dictUpdate sd sub (fun p => if isSelf then (some i, p.2) else (p.1, some i))))

/-- The `if self_match:` block of `set_cur_headers` (lines 267-271): strip the
category capture, clean the subcategory capture, then the doubly-subscripted
assignment. -/
def curSelfStep (st : CurState) (index : Nat) :
    Option (PyStr × PyStr) → Except PyErr CurState
  | none => .ok st
  | some (g1, g2) =>
    match curSetIndex st.curColMapping (pyStrip g1) (clean_subcategory g2) true index with
    | .error e => .error e
    | .ok d => .ok { st with curColMapping := d }

/-- The `if team_match:` block of `set_cur_headers` (lines 272-276). -/
def curTeamStep (st : CurState) (index : Nat) :
    Option (PyStr × PyStr) → Except PyErr CurState
  | none => .ok st
  | some (g1, g2) =>
    match curSetIndex st.curColMapping (pyStrip g1) (clean_subcategory g2) false index with
    | .error e => .error e
    | .ok d => .ok { st with curColMapping := d }

/-- One iteration of the header loop of `set_cur_headers` (lines 260-276): the
`OTHER_COL` shortcut, then the `self` block and then the `team` block. -/
def curHandleCell (st : CurState) (index : Nat) (col : PyStr) : Except PyErr CurState :=
  if col ∈ OTHER_COL then
    .ok { st with commonColMapping := set_common_headers st.commonColMapping col index }
  else
    match curSelfStep st index (matchSelf col) with
    | .error e => .error e
    | .ok st1 => curTeamStep st1 index (matchTeam col)

/-- The `for index, col in enumerate(row)` loop of `set_cur_headers`. -/
def curFold (st : CurState) (index : Nat) : List PyStr → Except PyErr CurState
  | [] => .ok st
  | c :: cs =>
    match curHandleCell st index c with
    | .error e => .error e
    | .ok st' => curFold st' (index + 1) cs

/-- `set_cur_headers` from devops_skills_analysis.py lines 235-276. -/
def set_cur_headers (common0 : Dict Nat) (row : List PyStr) (mapping : Dict (List PyStr)) :
    Except PyErr CurState :=
  curFold { curColMapping := initCurColMapping mapping, commonColMapping := common0 } 0 row

/-- Presence of a (category, subcategory) pair in a team mapping. -/
def mappingHasPair (mapping : Dict (List PyStr)) (c s : PyStr) : Bool :=
  match dictGet mapping c with
  | none => false
  | some subs => decide (s ∈ subs)

/-! ## Dictionary lemmas -/

theorem dictUpdate_keys {β : Type} (d : Dict β) (k : PyStr) (f : β → β) :
    (dictUpdate d k f).map Prod.fst = d.map Prod.fst := by
  induction d with
  | nil => rfl
  | cons p rest ih =>
    obtain ⟨k0, v0⟩ := p
    by_cases h : k = k0 <;> simp [dictUpdate, h, ih]

theorem dictGet_eq_none_iff {β : Type} (d : Dict β) (k : PyStr) :
    dictGet d k = none ↔ k ∉ d.map Prod.fst := by
  induction d with
  | nil => simp [dictGet]
  | cons p rest ih =>
    obtain ⟨k0, v0⟩ := p
    by_cases h : k = k0
    · subst h
      simp only [dictGet, if_pos rfl, List.map_cons, List.mem_cons]
      constructor
      · intro hc
        exact Option.noConfusion hc
      · intro hnot
        exact (hnot (Or.inl trivial)).elim
    · simp only [dictGet, if_neg h, List.map_cons, List.mem_cons]
      rw [ih]
      constructor
      · intro hnot hc
        rcases hc with hc | hc
        · exact h hc
        · exact hnot hc
      · intro hnot hc
        exact hnot (Or.inr hc)

theorem dictGet_none_congr {β γ : Type} {d : Dict β} {d' : Dict γ}
    (hk : d'.map Prod.fst = d.map Prod.fst) (k : PyStr) :
    dictGet d' k = none ↔ dictGet d k = none := by
  rw [dictGet_eq_none_iff, dictGet_eq_none_iff, hk]

theorem dictGet_dictUpdate_self {β : Type} (d : Dict β) (k : PyStr) (f : β → β) :
    dictGet (dictUpdate d k f) k = Option.map f (dictGet d k) := by
  induction d with
  | nil => rfl
  | cons p rest ih =>
    obtain ⟨k0, v0⟩ := p
    by_cases h : k = k0 <;> simp [dictUpdate, dictGet, h, ih]

theorem dictGet_dictUpdate_ne {β : Type} (d : Dict β) (k k' : PyStr) (f : β → β)
    (h : k' ≠ k) : dictGet (dictUpdate d k f) k' = dictGet d k' := by
  induction d with
  | nil => rfl
  | cons p rest ih =>
    obtain ⟨k0, v0⟩ := p
    by_cases h0 : k = k0
    · subst h0
      simp [dictUpdate, dictGet, h]
    · by_cases h1 : k' = k0 <;> simp [dictUpdate, dictGet, h0, h1, ih]

theorem isSome_dictGet_dictUpdate {β : Type} (d : Dict β) (k k' : PyStr) (f : β → β) :
    (dictGet (dictUpdate d k f) k').isSome = (dictGet d k').isSome := by
  by_cases h : k' = k
  · subst h
    rw [dictGet_dictUpdate_self]
    cases dictGet d k' <;> rfl
  · rw [dictGet_dictUpdate_ne d k k' f h]

theorem dictGet_map_val {β γ : Type} (g : β → γ) (d : Dict β) (k : PyStr) :
    dictGet (d.map (fun p => (p.1, g p.2))) k = Option.map g (dictGet d k) := by
  induction d with
  | nil => rfl
  | cons p rest ih =>
    obtain ⟨k0, v0⟩ := p
    by_cases h : k = k0 <;> simp [dictGet, h, ih]

theorem dictGet_const_list {β : Type} (li : List PyStr) (v0 : β) (k : PyStr) :
    dictGet (li.map (fun a => (a, v0))) k = if k ∈ li then some v0 else none := by
  induction li with
  | nil => simp [dictGet]
  | cons a rest ih =>
    by_cases h : k = a <;> simp [dictGet, h, ih]

/-! ## C2: `set_common_headers` and column position 0 -/

/-- C2 (refutation at the failing input): a fixed identity question sitting at
column position 0 is never recorded — `set_common_headers` evaluates the
integer index for truthiness (`... and index`), so `index = 0` is skipped —
while the same first occurrence at a non-zero position is recorded and a later
duplicate does not overwrite it. -/
theorem set_common_headers_skips_index_zero :
    set_common_headers [] "Name".data 0 = [] ∧
    set_common_headers [] "Name".data 1 = [("Name".data, 1)] ∧
    set_common_headers [("Name".data, 1)] "Name".data 2 = [("Name".data, 1)] := by
  decide

/-! ## C1: a template match whose capture is not declared in the mapping -/

theorem futUseStep_keys {st st' : FutState} {i : Nat} {m : Option PyStr}
    (h : futUseStep st i m = .ok st') :
    st'.futColMapping.map Prod.fst = st.futColMapping.map Prod.fst := by
  cases m with
  | none =>
    simp only [futUseStep] at h
    cases h
    rfl
  | some cap =>
    simp only [futUseStep] at h
    split at h
    · cases h
      exact dictUpdate_keys _ _ _
    · exact Except.noConfusion h

theorem futLearnStep_keys {st st' : FutState} {i : Nat} {m : Option PyStr}
    (h : futLearnStep st i m = .ok st') :
    st'.futColMapping.map Prod.fst = st.futColMapping.map Prod.fst := by
  cases m with
  | none =>
    simp only [futLearnStep] at h
    cases h
    rfl
  | some cap =>
    simp only [futLearnStep] at h
    split at h
    · cases h
      exact dictUpdate_keys _ _ _
    · exact Except.noConfusion h

theorem futUseStep_error_eq {st : FutState} {i : Nat} {m : Option PyStr} {e : PyErr}
    (h : futUseStep st i m = .error e) : e = .keyError := by
  cases m with
  | none =>
    simp only [futUseStep] at h
    exact Except.noConfusion h
  | some cap =>
    simp only [futUseStep] at h
    split at h
    · exact Except.noConfusion h
    · cases h
      rfl

theorem futLearnStep_error_eq {st : FutState} {i : Nat} {m : Option PyStr} {e : PyErr}
    (h : futLearnStep st i m = .error e) : e = .keyError := by
  cases m with
  | none =>
    simp only [futLearnStep] at h
    exact Except.noConfusion h
  | some cap =>
    simp only [futLearnStep] at h
    split at h
    · exact Except.noConfusion h
    · cases h
      rfl

theorem futHandleCell_keys {st st' : FutState} {i : Nat} {col : PyStr}
    (h : futHandleCell st i col = .ok st') :
    st'.futColMapping.map Prod.fst = st.futColMapping.map Prod.fst := by
  unfold futHandleCell at h
  split at h
  · cases h
    rfl
  · split at h
    · exact Except.noConfusion h
    · rename_i st1 hstep
      rw [futLearnStep_keys h, futUseStep_keys hstep]

theorem futHandleCell_error_eq {st : FutState} {i : Nat} {col : PyStr} {e : PyErr}
    (h : futHandleCell st i col = .error e) : e = .keyError := by
  unfold futHandleCell at h
  split at h
  · exact Except.noConfusion h
  · split at h
    · rename_i e' hstep
      cases h
      exact futUseStep_error_eq hstep
    · exact futLearnStep_error_eq h

theorem futUseStep_bad {st : FutState} {i : Nat} {cap : PyStr}
    (hget : dictGet st.futColMapping (pyStrip cap) = none) :
    futUseStep st i (some cap) = .error .keyError := by
  simp only [futUseStep]
  rw [hget]

theorem futLearnStep_bad {st : FutState} {i : Nat} {cap : PyStr}
    (hget : dictGet st.futColMapping (pyStrip cap) = none) :
    futLearnStep st i (some cap) = .error .keyError := by
  simp only [futLearnStep]
  rw [hget]

theorem futHandleCell_bad {st : FutState} {i : Nat} {col cap : PyStr}
    (hoc : col ∉ OTHER_COL)
    (hm : matchUse col = some cap ∨ matchLearn col = some cap)
    (hget : dictGet st.futColMapping (pyStrip cap) = none) :
    futHandleCell st i col = .error .keyError := by
  unfold futHandleCell
  rw [if_neg hoc]
  rcases hm with hU | hL
  · rw [hU, futUseStep_bad hget]
  · cases hU : matchUse col with
    | none =>
      show futLearnStep st i (matchLearn col) = .error .keyError
      rw [hL]
      exact futLearnStep_bad hget
    | some cap' =>
      cases hG : dictGet st.futColMapping (pyStrip cap') with
      | none => rw [futUseStep_bad hG]
      | some v =>
        have hok : futUseStep st i (some cap') =
            .ok { st with futColMapping :=
                    dictUpdate st.futColMapping (pyStrip cap') (fun p => (some i, p.2)) } := by
          simp only [futUseStep]
          rw [hG]
        rw [hok]
        show futLearnStep _ i (matchLearn col) = .error .keyError
        rw [hL]
        apply futLearnStep_bad
        show dictGet (dictUpdate st.futColMapping (pyStrip cap') _) (pyStrip cap) = none
        have hne : pyStrip cap ≠ pyStrip cap' := by
          intro he
          rw [he, hG] at hget
          exact Option.noConfusion hget
        rw [dictGet_dictUpdate_ne _ _ _ _ hne]
        exact hget

theorem futFold_bad {col cap : PyStr} (hoc : col ∉ OTHER_COL)
    (hm : matchUse col = some cap ∨ matchLearn col = some cap) :
    ∀ (cells : List PyStr) (st : FutState) (i : Nat), col ∈ cells →
      dictGet st.futColMapping (pyStrip cap) = none →
      futFold st i cells = .error .keyError := by
  intro cells
  induction cells with
  | nil => intro st i hmem; exact absurd hmem (List.not_mem_nil col)
  | cons c cs ih =>
    intro st i hmem hget
    rcases List.mem_cons.mp hmem with rfl | hmem'
    · unfold futFold
      rw [futHandleCell_bad hoc hm hget]
    · unfold futFold
      cases hstep : futHandleCell st i c with
      | error e => rw [futHandleCell_error_eq hstep]
      | ok st' =>
        exact ih st' (i + 1) hmem'
          (by rwa [dictGet_none_congr (futHandleCell_keys hstep) (pyStrip cap)])

/-- Presence of a (category, subcategory) pair in the nested
`CUR_COL_MAPPING` structure. -/
def hasPairD (d : Dict (Dict (Option Nat × Option Nat))) (c s : PyStr) : Bool :=
  match dictGet d c with
  | none => false
  | some subs => (dictGet subs s).isSome

theorem hasPairD_dictUpdate (d : Dict (Dict (Option Nat × Option Nat)))
    (cat sub : PyStr) (f : Option Nat × Option Nat → Option Nat × Option Nat)
    (c s : PyStr) :
    hasPairD (dictUpdate d cat (fun sd => dictUpdate sd sub f)) c s = hasPairD d c s := by
  unfold hasPairD
  by_cases h : c = cat
  · subst h
    rw [dictGet_dictUpdate_self]
    cases hG : dictGet d c with
    | none => rfl
    | some subs =>
      simp only [Option.map_some']
      have hs := isSome_dictGet_dictUpdate subs sub s f
      cases h1 : dictGet (dictUpdate subs sub f) s <;> cases h2 : dictGet subs s <;>
        rw [h1, h2] at hs <;> simp_all
  · rw [dictGet_dictUpdate_ne _ _ _ _ h]

theorem curSetIndex_ok_pairs {d d' : Dict (Dict (Option Nat × Option Nat))}
    {cat sub : PyStr} {b : Bool} {i : Nat}
    (h : curSetIndex d cat sub b i = .ok d') (c s : PyStr) :
    hasPairD d' c s = hasPairD d c s := by
  unfold curSetIndex at h
  split at h
  · exact Except.noConfusion h
  · split at h
    · exact Except.noConfusion h
    · cases h
      exact hasPairD_dictUpdate d cat sub _ c s

theorem curSetIndex_bad {d : Dict (Dict (Option Nat × Option Nat))}
    {cat sub : PyStr} {b : Bool} {i : Nat}
    (h : hasPairD d cat sub = false) : curSetIndex d cat sub b i = .error .keyError := by
  unfold curSetIndex
  split
  · rfl
  · rename_i subs hG
    split
    · rfl
    · rename_i v hG2
      unfold hasPairD at h
      rw [hG] at h
      simp [hG2] at h

theorem curSetIndex_error_eq {d : Dict (Dict (Option Nat × Option Nat))}
    {cat sub : PyStr} {b : Bool} {i : Nat} {e : PyErr}
    (h : curSetIndex d cat sub b i = .error e) : e = .keyError := by
  unfold curSetIndex at h
  split at h
  · cases h
    rfl
  · split at h
    · cases h
      rfl
    · exact Except.noConfusion h

theorem curSelfStep_pairs {st st' : CurState} {i : Nat} {m : Option (PyStr × PyStr)}
    (h : curSelfStep st i m = .ok st') (c s : PyStr) :
    hasPairD st'.curColMapping c s = hasPairD st.curColMapping c s := by
  cases m with
  | none =>
    simp only [curSelfStep] at h
    cases h
    rfl
  | some g =>
    obtain ⟨g1, g2⟩ := g
    simp only [curSelfStep] at h
    split at h
    · exact Except.noConfusion h
    · rename_i d hset
      cases h
      exact curSetIndex_ok_pairs hset c s

theorem curTeamStep_pairs {st st' : CurState} {i : Nat} {m : Option (PyStr × PyStr)}
    (h : curTeamStep st i m = .ok st') (c s : PyStr) :
    hasPairD st'.curColMapping c s = hasPairD st.curColMapping c s := by
  cases m with
  | none =>
    simp only [curTeamStep] at h
    cases h
    rfl
  | some g =>
    obtain ⟨g1, g2⟩ := g
    simp only [curTeamStep] at h
    split at h
    · exact Except.noConfusion h
    · rename_i d hset
      cases h
      exact curSetIndex_ok_pairs hset c s

theorem curSelfStep_error_eq {st : CurState} {i : Nat} {m : Option (PyStr × PyStr)} {e : PyErr}
    (h : curSelfStep st i m = .error e) : e = .keyError := by
  cases m with
  | none =>
    simp only [curSelfStep] at h
    exact Except.noConfusion h
  | some g =>
    obtain ⟨g1, g2⟩ := g
    simp only [curSelfStep] at h
    split at h
    · rename_i e' hset
      cases h
      exact curSetIndex_error_eq hset
    · exact Except.noConfusion h

theorem curTeamStep_error_eq {st : CurState} {i : Nat} {m : Option (PyStr × PyStr)} {e : PyErr}
    (h : curTeamStep st i m = .error e) : e = .keyError := by
  cases m with
  | none =>
    simp only [curTeamStep] at h
    exact Except.noConfusion h
  | some g =>
    obtain ⟨g1, g2⟩ := g
    simp only [curTeamStep] at h
    split at h
    · rename_i e' hset
      cases h
      exact curSetIndex_error_eq hset
    · exact Except.noConfusion h

theorem curHandleCell_pairs {st st' : CurState} {i : Nat} {col : PyStr}
    (h : curHandleCell st i col = .ok st') (c s : PyStr) :
    hasPairD st'.curColMapping c s = hasPairD st.curColMapping c s := by
  unfold curHandleCell at h
  split at h
  · cases h
    rfl
  · split at h
    · exact Except.noConfusion h
    · rename_i st1 hstep
      rw [curTeamStep_pairs h c s, curSelfStep_pairs hstep c s]

theorem curHandleCell_error_eq {st : CurState} {i : Nat} {col : PyStr} {e : PyErr}
    (h : curHandleCell st i col = .error e) : e = .keyError := by
  unfold curHandleCell at h
  split at h
  · exact Except.noConfusion h
  · split at h
    · rename_i e' hstep
      cases h
      exact curSelfStep_error_eq hstep
    · exact curTeamStep_error_eq h

theorem curSelfStep_bad {st : CurState} {i : Nat} {g1 g2 : PyStr}
    (hget : hasPairD st.curColMapping (pyStrip g1) (clean_subcategory g2) = false) :
    curSelfStep st i (some (g1, g2)) = .error .keyError := by
  simp only [curSelfStep]
  rw [curSetIndex_bad hget]

theorem curTeamStep_bad {st : CurState} {i : Nat} {g1 g2 : PyStr}
    (hget : hasPairD st.curColMapping (pyStrip g1) (clean_subcategory g2) = false) :
    curTeamStep st i (some (g1, g2)) = .error .keyError := by
  simp only [curTeamStep]
  rw [curSetIndex_bad hget]

theorem curHandleCell_bad {st : CurState} {i : Nat} {col g1 g2 : PyStr}
    (hoc : col ∉ OTHER_COL)
    (hm : matchSelf col = some (g1, g2) ∨ matchTeam col = some (g1, g2))
    (hget : hasPairD st.curColMapping (pyStrip g1) (clean_subcategory g2) = false) :
    curHandleCell st i col = .error .keyError := by
  unfold curHandleCell
  rw [if_neg hoc]
  rcases hm with hS | hT
  · rw [hS, curSelfStep_bad hget]
  · cases hS : matchSelf col with
    | none =>
      show curTeamStep st i (matchTeam col) = .error .keyError
      rw [hT]
      exact curTeamStep_bad hget
    | some g =>
      obtain ⟨g1', g2'⟩ := g
      cases hstep : curSelfStep st i (some (g1', g2')) with
      | error e => rw [curSelfStep_error_eq hstep]
      | ok st1 =>
        show curTeamStep st1 i (matchTeam col) = .error .keyError
        rw [hT]
        apply curTeamStep_bad
        rw [curSelfStep_pairs hstep]
        exact hget

theorem curFold_bad {col g1 g2 : PyStr} (hoc : col ∉ OTHER_COL)
    (hm : matchSelf col = some (g1, g2) ∨ matchTeam col = some (g1, g2)) :
    ∀ (cells : List PyStr) (st : CurState) (i : Nat), col ∈ cells →
      hasPairD st.curColMapping (pyStrip g1) (clean_subcategory g2) = false →
      curFold st i cells = .error .keyError := by
  intro cells
  induction cells with
  | nil => intro st i hmem; exact absurd hmem (List.not_mem_nil col)
  | cons c cs ih =>
    intro st i hmem hget
    rcases List.mem_cons.mp hmem with rfl | hmem'
    · unfold curFold
      rw [curHandleCell_bad hoc hm hget]
    · unfold curFold
      cases hstep : curHandleCell st i c with
      | error e => rw [curHandleCell_error_eq hstep]
      | ok st' =>
        exact ih st' (i + 1) hmem'
          (by rw [curHandleCell_pairs hstep]; exact hget)

theorem hasPairD_initCur (mapping : Dict (List PyStr)) (c s : PyStr) :
    hasPairD (initCurColMapping mapping) c s = mappingHasPair mapping c s := by
  unfold hasPairD initCurColMapping mappingHasPair
  rw [dictGet_map_val (fun subs => subs.map
        (fun a => (a, ((none : Option Nat), (none : Option Nat))))) mapping c]
  cases dictGet mapping c with
  | none => rfl
  | some subs =>
    simp only [Option.map_some']
    rw [dictGet_const_list subs ((none : Option Nat), (none : Option Nat)) s]
    by_cases h : s ∈ subs <;> simp [h]

/-- C1 (amended): when a header cell matches a current-skill or future-skill
sentence template but the stripped category capture (or, for the current-skill
templates, the cleaned subcategory capture within that category) was not
declared in the team mapping, the header matchers are NOT a silent no-op: the
unguarded dict subscripts `FUT_COL_MAPPING[cat]` / `CUR_COL_MAPPING[cat][sub]`
make `set_fut_headers`, respectively `set_cur_headers`, raise a `KeyError`. -/
theorem set_headers_unmapped_capture_raises :
    (∀ (common0 : Dict Nat) (row : List PyStr) (mapping : Dict (List PyStr))
       (col cap : PyStr), col ∈ row → col ∉ OTHER_COL →
       (matchUse col = some cap ∨ matchLearn col = some cap) →
       dictGet mapping (pyStrip cap) = none →
       set_fut_headers common0 row mapping = .error .keyError) ∧
    (∀ (common0 : Dict Nat) (row : List PyStr) (mapping : Dict (List PyStr))
       (col g1 g2 : PyStr), col ∈ row → col ∉ OTHER_COL →
       (matchSelf col = some (g1, g2) ∨ matchTeam col = some (g1, g2)) →
       mappingHasPair mapping (pyStrip g1) (clean_subcategory g2) = false →
       set_cur_headers common0 row mapping = .error .keyError) := by
  constructor
  · intro common0 row mapping col cap hmem hoc hm hget
    unfold set_fut_headers
    apply futFold_bad hoc hm row _ 0 hmem
    show dictGet (initFutColMapping mapping) (pyStrip cap) = none
    unfold initFutColMapping
    rw [dictGet_map_val (fun _ => ((none : Option Nat), (none : Option Nat))) mapping
        (pyStrip cap), hget]
    rfl
  · intro common0 row mapping col g1 g2 hmem hoc hm hget
    unfold set_cur_headers
    apply curFold_bad hoc hm row _ 0 hmem
    show hasPairD (initCurColMapping mapping) (pyStrip g1) (clean_subcategory g2) = false
    rw [hasPairD_initCur]
    exact hget

/-- C1 (counterexample to the claim as stated): a use-template header with the
undeclared category `X`, and a self-template header with the undeclared
(category, subcategory) pair `(X, Y)`, each make the matcher raise a
`KeyError` against an empty mapping instead of completing without error. -/
theorem set_headers_unmapped_capture_not_silent_cex :
    set_fut_headers []
      ["Which X skills would you like to use in your day-to-day work, or feel are underused?".data]
      [] = .error .keyError ∧
    set_cur_headers []
      ["How would you describe your current experience or comfort level with X?.Y".data]
      [] = .error .keyError :=
  ⟨rfl, rfl⟩

/-- Witness for C1: the amended theorem applied at concrete inputs — a header
row whose second cell matches the use template with category `X` (respectively
the self template with captures `(X, Y)`) under a mapping that declares only
the category `Z` with subcategory `W`. -/
theorem set_headers_unmapped_capture_raises_witness :
    set_fut_headers [] ["Name".data,
      "Which X skills would you like to use in your day-to-day work, or feel are underused?".data]
      [("Z".data, ["W".data])] = .error .keyError ∧
    set_cur_headers [] ["Name".data,
      "How would you describe your current experience or comfort level with X?.Y".data]
      [("Z".data, ["W".data])] = .error .keyError := by
  constructor
  · exact set_headers_unmapped_capture_raises.1 [] _ _
      "Which X skills would you like to use in your day-to-day work, or feel are underused?".data
      "X".data (by decide) (by decide) (Or.inl (by decide)) (by decide)
  · exact set_headers_unmapped_capture_raises.2 [] _ _
      "How would you describe your current experience or comfort level with X?.Y".data
      "X".data "Y".data (by decide) (by decide) (Or.inl (by decide)) (by decide)

/-! ## `create_new_rows` and `row_to_future_skills` -/

/-- The fields of the `skill_dict` template that `row_to_future_skills` fills
before calling `create_new_rows` (devops_skills_analysis.py lines 206-214 and
226-227); `SubCategory`, `Use` and `Learn` start as `None` and are always
overwritten by `create_new_rows` before a row is emitted. -/
structure FutTemp where
  name : PyStr
  classification : PyStr
  team : PyStr
  category : PyStr
deriving DecidableEq, Repr

/-- One output record of the future-skills reshaper. -/
structure FutRec where
  name : PyStr
  classification : PyStr
  team : PyStr
  category : PyStr
  subCategory : PyStr
  use : Nat
  learn : Nat
deriving DecidableEq, Repr

/-- The two emission loops of `create_new_rows` (devops_skills_analysis.py
lines 152-167 and 169-184) are the two instances of this loop: iterate the
list, skip subcategories already in `added`, emit a record whose primary flag
is 1 and whose other flag is 1 exactly when the subcategory is also in the
other list (`other`), and append the subcategory to `added`. -/
def emitLoop (isUse : Bool) (other : List PyStr) (tmp : FutTemp) :
    List PyStr → List PyStr → List PyStr × List FutRec
  | [], added => (added, [])
  | s :: rest, added =>
    if s ∈ added then emitLoop isUse other tmp rest added
    else
      let mem : Nat := if s ∈ other then 1 else 0
      let r : FutRec :=
        { name := tmp.name, classification := tmp.classification, team := tmp.team,
          category := tmp.category, subCategory := s,
          use := if isUse then 1 else mem, learn := if isUse then mem else 1 }
      let res := emitLoop isUse other tmp rest (added ++ [s])
      (res.1, r :: res.2)

/-- `create_new_rows` from devops_skills_analysis.py lines 135-186: the use
loop runs first with an empty `added` list, then the learn loop continues with
the `added` list left by the use loop. -/
def create_new_rows (use_li learn_li : List PyStr) (tmp : FutTemp) : List FutRec :=
  let res1 := emitLoop true learn_li tmp use_li []
  let res2 := emitLoop false use_li tmp learn_li res1.1
  res1.2 ++ res2.2

/-- Python `row[COMMON_COL_MAPPING[key]]`: `KeyError` when the key was never
recorded, `IndexError` when the recorded column is out of range. -/
def commonAt (common : Dict Nat) (k : PyStr) (row : List PyStr) : Except PyErr PyStr :=
  match dictGet common k with
  | some i => pyIndex row i
  | none => .error .keyError

/-- The body of the `for ele in FUT_COLS.items()` loop of
`row_to_future_skills` (devops_skills_analysis.py lines 216-231) for one
category: look the category up in `FUT_COL_MAPPING` (`KeyError` if absent),
fetch and parse the use cell and then the learn cell (`TypeError` when the
recorded column is still `None`, `IndexError` when it is out of range), and
build the rows with the category filled into the template. -/
def futCategoryRows (futColMapping : Dict (Option Nat × Option Nat)) (row : List PyStr)
    (tmp0 : FutTemp) (category : PyStr) : Except PyErr (List FutRec) :=
  match dictGet futColMapping category with
  | none => .error .keyError
  | some pr =>
    match noneTypeErr pr.1 with
    | .error e => .error e
    | .ok ui =>
      match pyIndex row ui with
      | .error e => .error e
      | .ok useCell =>
        match noneTypeErr pr.2 with
        | .error e => .error e
        | .ok li =>
          match pyIndex row li with
          | .error e => .error e
          | .ok learnCell =>
            .ok (create_new_rows (str_to_subcategory_list useCell)
                  (str_to_subcategory_list learnCell)
                  { tmp0 with category := category })

/-- The `for ele in FUT_COLS.items()` loop, extending `future_skills` with the
rows of each category in dict order. -/
def futCatFold (fcm : Dict (Option Nat × Option Nat)) (row : List PyStr) (tmp0 : FutTemp) :
    List PyStr → Except PyErr (List FutRec)
  | [] => .ok []
  | c :: cs =>
    match futCategoryRows fcm row tmp0 c with
    | .error e => .error e
    | .ok rs =>
      match futCatFold fcm row tmp0 cs with
      | .error e => .error e
      | .ok more => .ok (rs ++ more)

/-- `row_to_future_skills` from devops_skills_analysis.py lines 188-233.  The
`Category` field of the template is Python `None`, modelled by the empty
string; it is overwritten for every category before any record is built.
`FUT_COLS` contributes only its keys (`ele[0]`). -/
def row_to_future_skills (common : Dict Nat) (futColMapping : Dict (Option Nat × Option Nat))
    (futCols : Dict (Dict (Nat × Nat))) (row : List PyStr) : Except PyErr (List FutRec) :=
  match commonAt common "Name".data row with
  | .error e => .error e
  | .ok nm =>
    match commonAt common "Classification Level".data row with
    | .error e => .error e
    | .ok cl =>
      match commonAt common "What team are you on?".data row with
      | .error e => .error e
      | .ok tm =>
        futCatFold futColMapping row
          { name := nm, classification := cl, team := tm, category := [] }
          (futCols.map Prod.fst)

/-! ## C4 and C5: uniqueness of emitted subcategories -/

theorem emitLoop_spec (b : Bool) (o : List PyStr) (t : FutTemp) :
    ∀ (li added : List PyStr),
      (emitLoop b o t li added).1 =
        added ++ ((emitLoop b o t li added).2.map (fun r => r.subCategory)) ∧
      ((emitLoop b o t li added).2.map (fun r => r.subCategory)).Nodup ∧
      ∀ x ∈ (emitLoop b o t li added).2.map (fun r => r.subCategory), x ∉ added := by
  intro li
  induction li with
  | nil => intro added; simp [emitLoop]
  | cons s rest ih =>
    intro added
    by_cases hmem : s ∈ added
    · simpa [emitLoop, hmem] using ih added
    · obtain ⟨h1, h2, h3⟩ := ih (added ++ [s])
      simp only [emitLoop, if_neg hmem, List.map_cons]
      refine ⟨?_, ?_, ?_⟩
      · rw [h1, List.append_assoc]
        rfl
      · rw [List.nodup_cons]
        refine ⟨fun hx => ?_, h2⟩
        exact h3 s hx (List.mem_append_right added (List.mem_singleton_self s))
      · intro x hx
        rcases List.mem_cons.mp hx with rfl | hx'
        · exact hmem
        · intro hxa
          exact h3 x hx' (List.mem_append_left [s] hxa)

theorem emitLoop_fields (b : Bool) (o : List PyStr) (t : FutTemp) :
    ∀ (li added : List PyStr) (r : FutRec), r ∈ (emitLoop b o t li added).2 →
      r.name = t.name ∧ r.classification = t.classification ∧
      r.team = t.team ∧ r.category = t.category := by
  intro li
  induction li with
  | nil => intro added r hr; simp [emitLoop] at hr
  | cons s rest ih =>
    intro added r hr
    by_cases hmem : s ∈ added
    · rw [emitLoop, if_pos hmem] at hr
      exact ih added r hr
    · rw [emitLoop, if_neg hmem] at hr
      rcases List.mem_cons.mp hr with rfl | hr'
      · exact ⟨rfl, rfl, rfl, rfl⟩
      · exact ih (added ++ [s]) r hr'

theorem emitLoop_use_true (o : List PyStr) (t : FutTemp) :
    ∀ (li added : List PyStr) (r : FutRec), r ∈ (emitLoop true o t li added).2 →
      r.use = 1 ∧ (r.subCategory ∈ o → r.learn = 1) := by
  intro li
  induction li with
  | nil => intro added r hr; simp [emitLoop] at hr
  | cons s rest ih =>
    intro added r hr
    by_cases hmem : s ∈ added
    · rw [emitLoop, if_pos hmem] at hr
      exact ih added r hr
    · rw [emitLoop, if_neg hmem] at hr
      rcases List.mem_cons.mp hr with rfl | hr'
      · refine ⟨rfl, fun hso => ?_⟩
        show (if s ∈ o then (1 : Nat) else 0) = 1
        rw [if_pos hso]
      · exact ih (added ++ [s]) r hr'

theorem emitLoop_covers (b : Bool) (o : List PyStr) (t : FutTemp) :
    ∀ (li added : List PyStr) (s : PyStr), s ∈ li →
      s ∈ added ∨ s ∈ (emitLoop b o t li added).2.map (fun r => r.subCategory) := by
  intro li
  induction li with
  | nil => intro added s hs; exact absurd hs (List.not_mem_nil s)
  | cons s0 rest ih =>
    intro added s hs
    by_cases hmem : s0 ∈ added
    · rw [emitLoop, if_pos hmem]
      rcases List.mem_cons.mp hs with rfl | hs'
      · exact Or.inl hmem
      · exact ih added s hs'
    · rw [emitLoop, if_neg hmem]
      simp only [List.map_cons]
      rcases List.mem_cons.mp hs with rfl | hs'
      · exact Or.inr (List.mem_cons_self _ _)
      · rcases ih (added ++ [s0]) s hs' with hin | hin
        · rcases List.mem_append.mp hin with hin' | hin'
          · exact Or.inl hin'
          · rw [List.mem_singleton.mp hin']
            exact Or.inr (List.mem_cons_self _ _)
        · exact Or.inr (List.mem_cons_of_mem _ hin)

theorem create_new_rows_sub_nodup (u l : List PyStr) (t : FutTemp) :
    ((create_new_rows u l t).map (fun r => r.subCategory)).Nodup := by
  unfold create_new_rows
  obtain ⟨h1, h2, _⟩ := emitLoop_spec true l t u []
  obtain ⟨_, h2', h3'⟩ := emitLoop_spec false u t l (emitLoop true l t u []).1
  simp only [List.map_append]
  refine List.Nodup.append h2 h2' ?_
  intro x hx hx'
  apply h3' x hx'
  rw [h1]
  simpa using hx

theorem create_new_rows_fields (u l : List PyStr) (t : FutTemp) :
    ∀ r ∈ create_new_rows u l t,
      r.name = t.name ∧ r.classification = t.classification ∧
      r.team = t.team ∧ r.category = t.category := by
  intro r hr
  unfold create_new_rows at hr
  rcases List.mem_append.mp hr with h | h
  · exact emitLoop_fields true l t u [] r h
  · exact emitLoop_fields false u t l _ r h

theorem nodup_map_filter_singleton {α β : Type} [DecidableEq β] (f : α → β) (s : β) :
    ∀ (rs : List α), (rs.map f).Nodup → s ∈ rs.map f →
      (rs.filter (fun r => f r = s)).length = 1 := by
  intro rs
  induction rs with
  | nil => intro _ hmem; simp at hmem
  | cons r rest ih =>
    intro hnd hmem
    simp only [List.map_cons, List.nodup_cons] at hnd
    obtain ⟨hnotin, hnd'⟩ := hnd
    by_cases h : f r = s
    · rw [List.filter_cons_of_pos (by simpa using h)]
      have hrest : (rest.filter (fun r => f r = s)).length = 0 := by
        rw [List.length_eq_zero, List.filter_eq_nil_iff]
        intro a ha hfa
        apply hnotin
        rw [h, ← (by simpa using hfa : f a = s)]
        exact List.mem_map_of_mem f ha
      rw [List.length_cons, hrest]
    · rw [List.filter_cons_of_neg (by simpa using h)]
      apply ih hnd'
      rcases List.mem_cons.mp hmem with heq | hmem'
      · exact absurd heq.symm h
      · exact hmem'

/-- C5: a cleaned subcategory present in both the use list and the learn list
produces exactly one record in the output of `create_new_rows`, and every
record carrying that subcategory has `Use = 1` and `Learn = 1`. -/
theorem create_new_rows_use_and_learn_unique_record (u l : List PyStr) (t : FutTemp)
    (s : PyStr) (hu : s ∈ u) (hl : s ∈ l) :
    ((create_new_rows u l t).filter (fun r : FutRec => r.subCategory = s)).length = 1 ∧
    ∀ r ∈ create_new_rows u l t, r.subCategory = s → r.use = 1 ∧ r.learn = 1 := by
  have hnodup := create_new_rows_sub_nodup u l t
  have hmem1 : s ∈ (emitLoop true l t u []).2.map (fun r => r.subCategory) := by
    rcases emitLoop_covers true l t u [] s hu with h | h
    · exact absurd h (List.not_mem_nil s)
    · exact h
  have hmemall : s ∈ (create_new_rows u l t).map (fun r => r.subCategory) := by
    unfold create_new_rows
    rw [List.map_append]
    exact List.mem_append_left _ hmem1
  refine ⟨nodup_map_filter_singleton (fun r : FutRec => r.subCategory) s _ hnodup hmemall, ?_⟩
  intro r hr hrs
  unfold create_new_rows at hr
  rcases List.mem_append.mp hr with h | h
  · obtain ⟨huse, hlearn⟩ := emitLoop_use_true l t u [] r h
    exact ⟨huse, hlearn (by rw [hrs]; exact hl)⟩
  · obtain ⟨_, _, h3'⟩ := emitLoop_spec false u t l (emitLoop true l t u []).1
    obtain ⟨h1, _, _⟩ := emitLoop_spec true l t u []
    exfalso
    apply h3' r.subCategory (List.mem_map_of_mem _ h)
    rw [h1, hrs]
    simpa using hmem1

/-- Witness for C5 at a concrete input: the subcategory `A` appears in both
lists and yields exactly one record, with both flags set. -/
theorem create_new_rows_use_and_learn_unique_record_witness :
    ((create_new_rows ["A".data] ["A".data]
        ⟨"B".data, "B".data, "B".data, "Cloud".data⟩).filter
      (fun r : FutRec => r.subCategory = "A".data)).length = 1 ∧
    ∀ r ∈ create_new_rows ["A".data] ["A".data]
        ⟨"B".data, "B".data, "B".data, "Cloud".data⟩,
      r.subCategory = "A".data → r.use = 1 ∧ r.learn = 1 :=
  create_new_rows_use_and_learn_unique_record ["A".data] ["A".data]
    ⟨"B".data, "B".data, "B".data, "Cloud".data⟩ "A".data (by decide) (by decide)

theorem futCategoryRows_ok {fcm : Dict (Option Nat × Option Nat)} {row : List PyStr}
    {tmp0 : FutTemp} {c : PyStr} {rs : List FutRec}
    (h : futCategoryRows fcm row tmp0 c = .ok rs) :
    (∀ r ∈ rs, r.category = c) ∧ (rs.map (fun r => r.subCategory)).Nodup := by
  unfold futCategoryRows at h
  split at h
  · exact Except.noConfusion h
  · split at h
    · exact Except.noConfusion h
    · split at h
      · exact Except.noConfusion h
      · split at h
        · exact Except.noConfusion h
        · split at h
          · exact Except.noConfusion h
          · cases h
            constructor
            · intro r hr
              exact (create_new_rows_fields _ _ _ r hr).2.2.2
            · exact create_new_rows_sub_nodup _ _ _

theorem futCatFold_nodup {fcm : Dict (Option Nat × Option Nat)} {row : List PyStr}
    {tmp0 : FutTemp} :
    ∀ (cats : List PyStr) (recs : List FutRec), futCatFold fcm row tmp0 cats = .ok recs →
      cats.Nodup →
      (∀ r ∈ recs, r.category ∈ cats) ∧
      (recs.map (fun r => (r.category, r.subCategory))).Nodup := by
  intro cats
  induction cats with
  | nil =>
    intro recs h _
    unfold futCatFold at h
    cases h
    exact ⟨fun r hr => absurd hr (List.not_mem_nil r), List.nodup_nil⟩
  | cons c cs ih =>
    intro recs h hnd
    unfold futCatFold at h
    split at h
    · exact Except.noConfusion h
    · rename_i rs hrs
      split at h
      · exact Except.noConfusion h
      · rename_i more hmore
        cases h
        obtain ⟨hcat1, hnd1⟩ := futCategoryRows_ok hrs
        obtain ⟨hcatmem, hnodup2⟩ := ih more hmore (List.Nodup.of_cons hnd)
        constructor
        · intro r hr
          rcases List.mem_append.mp hr with hh | hh
          · rw [hcat1 r hh]
            exact List.mem_cons_self _ _
          · exact List.mem_cons_of_mem _ (hcatmem r hh)
        · rw [List.map_append]
          refine List.Nodup.append ?_ hnodup2 ?_
          · apply List.Nodup.of_map Prod.snd
            rw [List.map_map]
            have he : (Prod.snd ∘ fun r : FutRec => (r.category, r.subCategory)) =
                fun r : FutRec => r.subCategory := rfl
            rw [he]
            exact hnd1
          · intro p hp hp'
            obtain ⟨r, hr, rfl⟩ := List.mem_map.mp hp
            obtain ⟨r', hr', hpe⟩ := List.mem_map.mp hp'
            have h2 : r'.category ∈ cs := hcatmem r' hr'
            have h3 : r'.category = r.category := by
              have := congrArg Prod.fst hpe
              simpa using this
            rw [h3, hcat1 r hr] at h2
            exact (List.nodup_cons.mp hnd).1 h2

/-- C4: a successful `row_to_future_skills` run never emits two records with
the same (respondent, category, subcategory) triple: with the category keys of
`FUT_COLS` pairwise distinct (they are the keys of a Python dict), the
projection of the output records onto (Name, Category, SubCategory) has no
duplicates; inside `create_new_rows`, each unique cleaned subcategory of the
use and learn lists yields at most one record per category. -/
theorem row_to_future_skills_no_duplicate_triples
    (common : Dict Nat) (fcm : Dict (Option Nat × Option Nat))
    (fcols : Dict (Dict (Nat × Nat))) (row : List PyStr) (recs : List FutRec)
    (h : row_to_future_skills common fcm fcols row = .ok recs)
    (hnd : (fcols.map Prod.fst).Nodup) :
    (recs.map (fun r => (r.name, r.category, r.subCategory))).Nodup := by
  unfold row_to_future_skills at h
  split at h
  · exact Except.noConfusion h
  · split at h
    · exact Except.noConfusion h
    · split at h
      · exact Except.noConfusion h
      · have hpairs := (futCatFold_nodup (fcols.map Prod.fst) recs h hnd).2
        apply List.Nodup.of_map Prod.snd
        rw [List.map_map]
        have he : (Prod.snd ∘ fun r : FutRec => (r.name, r.category, r.subCategory)) =
            fun r : FutRec => (r.category, r.subCategory) := rfl
        rw [he]
        exact hpairs

/-- Witness for C4: a concrete run over one category whose use and learn cells
both name the subcategory `A` yields a single record, trivially free of
duplicate triples. -/
theorem row_to_future_skills_no_duplicate_triples_witness :
    (([⟨"B".data, "B".data, "B".data, "Cloud".data, "A".data, 1, 1⟩] : List FutRec).map
      (fun r => (r.name, r.category, r.subCategory))).Nodup :=
  row_to_future_skills_no_duplicate_triples
    [("Name".data, 0), ("Classification Level".data, 0), ("What team are you on?".data, 0)]
    [("Cloud".data, (some 1, some 2))] [("Cloud".data, [])]
    ["B".data, "A".data, "A".data]
    [⟨"B".data, "B".data, "B".data, "Cloud".data, "A".data, 1, 1⟩]
    rfl (by decide)

/-! ## `row_to_cur_skills` -/

/-- The values of `SKILL_LEVEL_MAP`: the integers 0-4, or the literal string
`"N/A"` (the Python dict mixes `int` and `str` values). -/
inductive LevelVal where
  | intv : Nat → LevelVal
  | strv : PyStr → LevelVal
deriving DecidableEq, Repr

/-- The literal `"N/A"`. -/
def naStr : PyStr := "N/A".data

/-- `SKILL_LEVEL_MAP` from devops_skills_analysis.py lines 25-32. -/
def SKILL_LEVEL_MAP : Dict LevelVal :=
  [("None".data, .intv 0), ("Novice".data, .intv 1), ("Intermediate".data, .intv 2),
   ("Advanced".data, .intv 3), ("Expert".data, .intv 4), ("N/A".data, .strv naStr)]

/-- One output record of the current-skills reshaper (the `skill_dict` shape of
devops_skills_analysis.py lines 292-302). -/
structure CurRec where
  name : PyStr
  classification : PyStr
  team : PyStr
  category : PyStr
  subCategory : PyStr
  skillLevelValue : LevelVal
  skillLevelDesc : PyStr
  teamNeedValue : LevelVal
  teamNeedDesc : PyStr
deriving DecidableEq, Repr

/-- `SKILL_LEVEL_MAP[desc]`: `KeyError` on an unrecognized level text. -/
def levelLookup (desc : PyStr) : Except PyErr LevelVal :=
  match dictGet SKILL_LEVEL_MAP desc with
  | some v => .ok v
  | none => .error .keyError

/-- The body of the inner loop of `row_to_cur_skills`
(devops_skills_analysis.py lines 308-330) for one (category, subcategory)
pair with column indices `idxs` = (SELF, TEAM): read the self cell (`TypeError`
when the index is still `None`, `IndexError` when out of range), replace an
empty cell by `"N/A"`, map it through `SKILL_LEVEL_MAP` (`KeyError` when
unrecognized), do the same for the team cell, and build the record.  The
source re-subscripts `CUR_COL_MAPPING[category][subcategory]`; as Python dict
keys are unique this is the entry being iterated, which we take directly. -/
def curCellRecord (name classification team cat sub : PyStr)
    (idxs : Option Nat × Option Nat) (row : List PyStr) : Except PyErr CurRec :=
  match noneTypeErr idxs.1 with
  | .error e => .error e
  | .ok si =>
    match pyIndex row si with
    | .error e => .error e
    | .ok d0 =>
      match levelLookup (if d0 = [] then naStr else d0) with
      | .error e => .error e
      | .ok self_value =>
        match noneTypeErr idxs.2 with
        | .error e => .error e
        | .ok ti =>
          match pyIndex row ti with
          | .error e => .error e
          | .ok t0 =>
            match levelLookup (if t0 = [] then naStr else t0) with
            | .error e => .error e
            | .ok team_value =>
              .ok { name := name, classification := classification, team := team,
                    category := cat, subCategory := sub,
                    skillLevelValue := self_value,
                    skillLevelDesc := if d0 = [] then naStr else d0,
                    teamNeedValue := team_value,
                    teamNeedDesc := if t0 = [] then naStr else t0 }

/-- The `for subcategory in value` loop of `row_to_cur_skills`, appending one
record per subcategory of the current category. -/
def curSubsFold (name classification team cat : PyStr) (row : List PyStr) :
    List (PyStr × Option Nat × Option Nat) → Except PyErr (List CurRec)
  | [] => .ok []
  | (sub, idxs) :: rest =>
    match curCellRecord name classification team cat sub idxs row with
    | .error e => .error e
    | .ok r =>
      match curSubsFold name classification team cat row rest with
      | .error e => .error e
      | .ok more => .ok (r :: more)

/-- The `for category, value in CUR_COL_MAPPING.items()` loop of
`row_to_cur_skills` (lines 304-330), skipping categories named like the
identity columns (`if category in OTHER_COL: continue`). -/
def curCatFold (name classification team : PyStr) (row : List PyStr) :
    Dict (Dict (Option Nat × Option Nat)) → Except PyErr (List CurRec)
  | [] => .ok []
  | (cat, subs) :: rest =>
    if cat ∈ OTHER_COL then curCatFold name classification team row rest
    else
      match curSubsFold name classification team cat row subs with
      | .error e => .error e
      | .ok rs =>
        match curCatFold name classification team row rest with
        | .error e => .error e
        | .ok more => .ok (rs ++ more)

/-- `row_to_cur_skills` from devops_skills_analysis.py lines 278-332. -/
def row_to_cur_skills (common : Dict Nat) (cur : Dict (Dict (Option Nat × Option Nat)))
    (row : List PyStr) : Except PyErr (List CurRec) :=
  match commonAt common "Name".data row with
  | .error e => .error e
  | .ok nm =>
    match commonAt common "Classification Level".data row with
    | .error e => .error e
    | .ok cl =>
      match commonAt common "What team are you on?".data row with
      | .error e => .error e
      | .ok tm => curCatFold nm cl tm row cur

/-! ## C6: an empty cell becomes the string "N/A" in both fields -/

theorem curCellRecord_self_empty {n c t cat sub : PyStr} {oj : Option Nat}
    {row : List PyStr} {i : Nat} {r : CurRec}
    (h : curCellRecord n c t cat sub (some i, oj) row = .ok r)
    (hrow : row.get? i = some []) :
    r.category = cat ∧ r.subCategory = sub ∧
      r.skillLevelDesc = naStr ∧ r.skillLevelValue = .strv naStr := by
  have hNA : levelLookup naStr = .ok (.strv naStr) := rfl
  simp only [curCellRecord, noneTypeErr, pyIndex, hrow, hNA, reduceIte] at h
  split at h
  · exact Except.noConfusion h
  · split at h
    · exact Except.noConfusion h
    · split at h
      · exact Except.noConfusion h
      · cases h
        exact ⟨rfl, rfl, rfl, rfl⟩

theorem curCellRecord_team_empty {n c t cat sub : PyStr} {oi : Option Nat}
    {row : List PyStr} {j : Nat} {r : CurRec}
    (h : curCellRecord n c t cat sub (oi, some j) row = .ok r)
    (hrow : row.get? j = some []) :
    r.category = cat ∧ r.subCategory = sub ∧
      r.teamNeedDesc = naStr ∧ r.teamNeedValue = .strv naStr := by
  have hNA : levelLookup naStr = .ok (.strv naStr) := rfl
  simp only [curCellRecord, noneTypeErr, pyIndex, hrow, hNA, reduceIte] at h
  split at h
  · exact Except.noConfusion h
  · split at h
    · exact Except.noConfusion h
    · split at h
      · exact Except.noConfusion h
      · cases h
        exact ⟨rfl, rfl, rfl, rfl⟩

theorem curSubsFold_ok_mem {n c t cat : PyStr} {row : List PyStr} :
    ∀ (subs : List (PyStr × Option Nat × Option Nat)) (recs : List CurRec)
      (sub : PyStr) (idxs : Option Nat × Option Nat),
      curSubsFold n c t cat row subs = .ok recs → (sub, idxs) ∈ subs →
      ∃ r, curCellRecord n c t cat sub idxs row = .ok r ∧ r ∈ recs := by
  intro subs
  induction subs with
  | nil => intro recs sub idxs _ hmem; exact absurd hmem (List.not_mem_nil _)
  | cons p rest ih =>
    obtain ⟨sub0, idxs0⟩ := p
    intro recs sub idxs h hmem
    unfold curSubsFold at h
    split at h
    · exact Except.noConfusion h
    · rename_i r0 hcell
      split at h
      · exact Except.noConfusion h
      · rename_i more hmore
        cases h
        rcases List.mem_cons.mp hmem with heq | hmem'
        · injection heq with h1 h2
          subst h1
          subst h2
          exact ⟨r0, hcell, List.mem_cons_self _ _⟩
        · obtain ⟨r, hr, hrmem⟩ := ih more sub idxs hmore hmem'
          exact ⟨r, hr, List.mem_cons_of_mem _ hrmem⟩

theorem curCatFold_ok_mem {n c t : PyStr} {row : List PyStr} :
    ∀ (curT : Dict (Dict (Option Nat × Option Nat))) (recs : List CurRec)
      (cat : PyStr) (subs : List (PyStr × Option Nat × Option Nat))
      (sub : PyStr) (idxs : Option Nat × Option Nat),
      curCatFold n c t row curT = .ok recs → (cat, subs) ∈ curT →
      cat ∉ OTHER_COL → (sub, idxs) ∈ subs →
      ∃ r, curCellRecord n c t cat sub idxs row = .ok r ∧ r ∈ recs := by
  intro curT
  induction curT with
  | nil => intro recs cat subs sub idxs _ hmem; exact absurd hmem (List.not_mem_nil _)
  | cons p rest ih =>
    obtain ⟨cat0, subs0⟩ := p
    intro recs cat subs sub idxs h hmem hoc hsm
    unfold curCatFold at h
    by_cases hskip : cat0 ∈ OTHER_COL
    · rw [if_pos hskip] at h
      rcases List.mem_cons.mp hmem with heq | hmem'
      · injection heq with h1 h2
        subst h1
        exact absurd hskip hoc
      · exact ih recs cat subs sub idxs h hmem' hoc hsm
    · rw [if_neg hskip] at h
      split at h
      · exact Except.noConfusion h
      · rename_i rs hrs
        split at h
        · exact Except.noConfusion h
        · rename_i more hmore
          cases h
          rcases List.mem_cons.mp hmem with heq | hmem'
          · injection heq with h1 h2
            subst h1
            subst h2
            obtain ⟨r, hr, hrm⟩ := curSubsFold_ok_mem _ _ sub idxs hrs hsm
            exact ⟨r, hr, List.mem_append_left _ hrm⟩
          · obtain ⟨r, hr, hrm⟩ := ih more cat subs sub idxs hmore hmem' hoc hsm
            exact ⟨r, hr, List.mem_append_right _ hrm⟩

theorem row_to_cur_skills_ok_mem {common : Dict Nat}
    {cur : Dict (Dict (Option Nat × Option Nat))} {row : List PyStr}
    {recs : List CurRec} {cat : PyStr}
    {subs : List (PyStr × Option Nat × Option Nat)} {sub : PyStr}
    {idxs : Option Nat × Option Nat}
    (h : row_to_cur_skills common cur row = .ok recs) (hm : (cat, subs) ∈ cur)
    (hoc : cat ∉ OTHER_COL) (hsm : (sub, idxs) ∈ subs) :
    ∃ n c t r, curCellRecord n c t cat sub idxs row = .ok r ∧ r ∈ recs := by
  unfold row_to_cur_skills at h
  split at h
  · exact Except.noConfusion h
  · rename_i nm hnm
    split at h
    · exact Except.noConfusion h
    · rename_i cl hcl
      split at h
      · exact Except.noConfusion h
      · rename_i tm htm
        obtain ⟨r, hr, hrm⟩ := curCatFold_ok_mem cur recs cat subs sub idxs h hm hoc hsm
        exact ⟨nm, cl, tm, r, hr, hrm⟩

/-- C6: for a respondent row and a mapped (category, subcategory) pair whose
self-level cell is the empty string, the emitted current-skills record has
`Skill Level Desc` equal to the string `"N/A"` and `Skill Level Value` equal to
the string `"N/A"` (not the number 0); symmetrically, an empty team-need cell
gives `Team Need Desc` and `Team Need Value` equal to the string `"N/A"`. -/
theorem row_to_cur_skills_empty_cell_na :
    (∀ (common : Dict Nat) (cur : Dict (Dict (Option Nat × Option Nat)))
       (row : List PyStr) (recs : List CurRec) (cat : PyStr)
       (subs : List (PyStr × Option Nat × Option Nat)) (sub : PyStr)
       (i : Nat) (oj : Option Nat),
       row_to_cur_skills common cur row = .ok recs →
       (cat, subs) ∈ cur → cat ∉ OTHER_COL → (sub, (some i, oj)) ∈ subs →
       row.get? i = some [] →
       ∃ r ∈ recs, r.category = cat ∧ r.subCategory = sub ∧
         r.skillLevelDesc = naStr ∧ r.skillLevelValue = .strv naStr) ∧
    (∀ (common : Dict Nat) (cur : Dict (Dict (Option Nat × Option Nat)))
       (row : List PyStr) (recs : List CurRec) (cat : PyStr)
       (subs : List (PyStr × Option Nat × Option Nat)) (sub : PyStr)
       (oi : Option Nat) (j : Nat),
       row_to_cur_skills common cur row = .ok recs →
       (cat, subs) ∈ cur → cat ∉ OTHER_COL → (sub, (oi, some j)) ∈ subs →
       row.get? j = some [] →
       ∃ r ∈ recs, r.category = cat ∧ r.subCategory = sub ∧
         r.teamNeedDesc = naStr ∧ r.teamNeedValue = .strv naStr) := by
  constructor
  · intro common cur row recs cat subs sub i oj h hm hoc hsm hrow
    obtain ⟨n', c', t', r, hr, hrm⟩ := row_to_cur_skills_ok_mem h hm hoc hsm
    obtain ⟨f1, f2, f3, f4⟩ := curCellRecord_self_empty hr hrow
    exact ⟨r, hrm, f1, f2, f3, f4⟩
  · intro common cur row recs cat subs sub oi j h hm hoc hsm hrow
    obtain ⟨n', c', t', r, hr, hrm⟩ := row_to_cur_skills_ok_mem h hm hoc hsm
    obtain ⟨f1, f2, f3, f4⟩ := curCellRecord_team_empty hr hrow
    exact ⟨r, hrm, f1, f2, f3, f4⟩

/-- Witness for C6: concrete runs with an empty self cell (row `["B", "",
"Novice"]`), respectively an empty team cell (row `["B", "Novice", ""]`), for
the single mapped pair (Cloud, AWS) with SELF column 1 and TEAM column 2. -/
theorem row_to_cur_skills_empty_cell_na_witness :
    (∃ r ∈ ([⟨"B".data, "B".data, "B".data, "Cloud".data, "AWS".data,
        .strv naStr, naStr, .intv 1, "Novice".data⟩] : List CurRec),
      r.category = "Cloud".data ∧ r.subCategory = "AWS".data ∧
        r.skillLevelDesc = naStr ∧ r.skillLevelValue = .strv naStr) ∧
    (∃ r ∈ ([⟨"B".data, "B".data, "B".data, "Cloud".data, "AWS".data,
        .intv 1, "Novice".data, .strv naStr, naStr⟩] : List CurRec),
      r.category = "Cloud".data ∧ r.subCategory = "AWS".data ∧
        r.teamNeedDesc = naStr ∧ r.teamNeedValue = .strv naStr) := by
  constructor
  · exact row_to_cur_skills_empty_cell_na.1
      [("Name".data, 0), ("Classification Level".data, 0), ("What team are you on?".data, 0)]
      [("Cloud".data, [("AWS".data, (some 1, some 2))])]
      ["B".data, [], "Novice".data] _ "Cloud".data
      [("AWS".data, (some 1, some 2))] "AWS".data 1 (some 2)
      rfl (by decide) (by decide) (by decide) (by decide)
  · exact row_to_cur_skills_empty_cell_na.2
      [("Name".data, 0), ("Classification Level".data, 0), ("What team are you on?".data, 0)]
      [("Cloud".data, [("AWS".data, (some 1, some 2))])]
      ["B".data, "Novice".data, []] _ "Cloud".data
      [("AWS".data, (some 1, some 2))] "AWS".data (some 1) 2
      rfl (by decide) (by decide) (by decide) (by decide)

/-! ## C7: unrecognized skill-level text is a fatal error, recognized text is not -/

theorem curCellRecord_self_bad {n c t cat sub : PyStr} {oj : Option Nat}
    {row : List PyStr} {i : Nat} {t0 : PyStr}
    (hrow : row.get? i = some t0) (hne : t0 ≠ [])
    (hmap : dictGet SKILL_LEVEL_MAP t0 = none) :
    curCellRecord n c t cat sub (some i, oj) row = .error .keyError := by
  simp only [curCellRecord, noneTypeErr, pyIndex, hrow, if_neg hne, levelLookup, hmap]

theorem curCellRecord_team_bad {n c t cat sub : PyStr} {oi : Option Nat}
    {row : List PyStr} {j : Nat} {t0 : PyStr}
    (hrow : row.get? j = some t0) (hne : t0 ≠ [])
    (hmap : dictGet SKILL_LEVEL_MAP t0 = none) :
    ∃ e, curCellRecord n c t cat sub (oi, some j) row = .error e := by
  cases oi with
  | none => exact ⟨.typeError, by simp only [curCellRecord, noneTypeErr]⟩
  | some i =>
    cases hg : row.get? i with
    | none => exact ⟨.indexError, by simp only [curCellRecord, noneTypeErr, pyIndex, hg]⟩
    | some d0 =>
      cases hv : dictGet SKILL_LEVEL_MAP (if d0 = [] then naStr else d0) with
      | none =>
        exact ⟨.keyError, by
          simp only [curCellRecord, noneTypeErr, pyIndex, hg, levelLookup, hv]⟩
      | some v =>
        exact ⟨.keyError, by
          simp only [curCellRecord, noneTypeErr, pyIndex, hg, hrow, levelLookup, hv,
            if_neg hne, hmap]⟩

theorem curSubsFold_member_error {n c t cat : PyStr} {row : List PyStr} :
    ∀ (subs : List (PyStr × Option Nat × Option Nat)) (sub : PyStr)
      (idxs : Option Nat × Option Nat), (sub, idxs) ∈ subs →
      (∃ e, curCellRecord n c t cat sub idxs row = .error e) →
      ∃ e, curSubsFold n c t cat row subs = .error e := by
  intro subs
  induction subs with
  | nil => intro sub idxs hmem; exact absurd hmem (List.not_mem_nil _)
  | cons p rest ih =>
    obtain ⟨sub0, idxs0⟩ := p
    intro sub idxs hmem hbad
    cases hcell : curCellRecord n c t cat sub0 idxs0 row with
    | error e => exact ⟨e, by unfold curSubsFold; rw [hcell]⟩
    | ok r =>
      rcases List.mem_cons.mp hmem with heq | hmem'
      · injection heq with h1 h2
        subst h1
        subst h2
        obtain ⟨e, he⟩ := hbad
        rw [hcell] at he
        exact Except.noConfusion he
      · obtain ⟨e, he⟩ := ih sub idxs hmem' hbad
        exact ⟨e, by unfold curSubsFold; rw [hcell, he]⟩

theorem curCatFold_member_error {n c t : PyStr} {row : List PyStr} :
    ∀ (curT : Dict (Dict (Option Nat × Option Nat))) (cat : PyStr)
      (subs : List (PyStr × Option Nat × Option Nat)), (cat, subs) ∈ curT →
      cat ∉ OTHER_COL →
      (∃ e, curSubsFold n c t cat row subs = .error e) →
      ∃ e, curCatFold n c t row curT = .error e := by
  intro curT
  induction curT with
  | nil => intro cat subs hmem; exact absurd hmem (List.not_mem_nil _)
  | cons p rest ih =>
    obtain ⟨cat0, subs0⟩ := p
    intro cat subs hmem hoc hbad
    by_cases hskip : cat0 ∈ OTHER_COL
    · rcases List.mem_cons.mp hmem with heq | hmem'
      · injection heq with h1 h2
        subst h1
        exact absurd hskip hoc
      · obtain ⟨e, he⟩ := ih cat subs hmem' hoc hbad
        exact ⟨e, by unfold curCatFold; rw [if_pos hskip]; exact he⟩
    · rcases List.mem_cons.mp hmem with heq | hmem'
      · injection heq with h1 h2
        subst h1
        subst h2
        obtain ⟨e, he⟩ := hbad
        exact ⟨e, by unfold curCatFold; rw [if_neg hskip, he]⟩
      · cases hsf : curSubsFold n c t cat0 row subs0 with
        | error e => exact ⟨e, by unfold curCatFold; rw [if_neg hskip, hsf]⟩
        | ok rs =>
          obtain ⟨e, he⟩ := ih cat subs hmem' hoc hbad
          exact ⟨e, by unfold curCatFold; rw [if_neg hskip, hsf, he]⟩

theorem row_to_cur_skills_member_error {common : Dict Nat}
    {cur : Dict (Dict (Option Nat × Option Nat))} {row : List PyStr} {cat : PyStr}
    {subs : List (PyStr × Option Nat × Option Nat)} {sub : PyStr}
    {idxs : Option Nat × Option Nat}
    (hm : (cat, subs) ∈ cur) (hoc : cat ∉ OTHER_COL) (hsm : (sub, idxs) ∈ subs)
    (hbad : ∀ n c t : PyStr, ∃ e, curCellRecord n c t cat sub idxs row = .error e) :
    ∃ e, row_to_cur_skills common cur row = .error e := by
  cases h1 : commonAt common "Name".data row with
  | error e => exact ⟨e, by unfold row_to_cur_skills; rw [h1]⟩
  | ok nm =>
    cases h2 : commonAt common "Classification Level".data row with
    | error e => exact ⟨e, by unfold row_to_cur_skills; rw [h1, h2]⟩
    | ok cl =>
      cases h3 : commonAt common "What team are you on?".data row with
      | error e => exact ⟨e, by unfold row_to_cur_skills; rw [h1, h2, h3]⟩
      | ok tm =>
        obtain ⟨e, he⟩ := curCatFold_member_error cur cat subs hm hoc
          (curSubsFold_member_error subs sub idxs hsm (hbad nm cl tm))
        exact ⟨e, by unfold row_to_cur_skills; rw [h1, h2, h3]; exact he⟩

/-- One column index is usable for `row_to_cur_skills`: it was set, is in
range, and the cell (empty replaced by `"N/A"`) is a key of
`SKILL_LEVEL_MAP`. -/
def cellOK (row : List PyStr) : Option Nat → Bool
  | none => false
  | some i =>
    match row.get? i with
    | none => false
    | some d0 => (dictGet SKILL_LEVEL_MAP (if d0 = [] then naStr else d0)).isSome

/-- Every non-skipped entry of `CUR_COL_MAPPING` has usable SELF and TEAM
columns for this row. -/
def curTableOK (cur : Dict (Dict (Option Nat × Option Nat))) (row : List PyStr) : Bool :=
  cur.all (fun p => decide (p.1 ∈ OTHER_COL) ||
    p.2.all (fun q => cellOK row q.2.1 && cellOK row q.2.2))

/-- The three identity columns were recorded and are in range for this row. -/
def commonOK (common : Dict Nat) (row : List PyStr) : Bool :=
  OTHER_COL.all (fun k =>
    match dictGet common k with
    | none => false
    | some i => decide (i < row.length))

theorem get?_some_of_lt : ∀ (l : List PyStr) (i : Nat), i < l.length →
    ∃ v, l.get? i = some v := by
  intro l
  induction l with
  | nil => intro i h; exact absurd h (Nat.not_lt_zero i)
  | cons a tl ih =>
    intro i h
    cases i with
    | zero => exact ⟨a, rfl⟩
    | succ m => exact ih m (Nat.lt_of_succ_lt_succ h)

theorem commonAt_ok_of {common : Dict Nat} {row : List PyStr} {k : PyStr}
    (hk : k ∈ OTHER_COL) (h : commonOK common row = true) :
    ∃ v, commonAt common k row = .ok v := by
  unfold commonOK at h
  rw [List.all_eq_true] at h
  have hthis := h k hk
  cases hg : dictGet common k with
  | none => simp [hg] at hthis
  | some i =>
    simp only [hg, decide_eq_true_eq] at hthis
    obtain ⟨v, hv⟩ := get?_some_of_lt row i hthis
    exact ⟨v, by simp only [commonAt, pyIndex, hg, hv]⟩

theorem curCellRecord_ok_of (n c t cat sub : PyStr) (idxs : Option Nat × Option Nat)
    (row : List PyStr) (h1 : cellOK row idxs.1 = true) (h2 : cellOK row idxs.2 = true) :
    ∃ r, curCellRecord n c t cat sub idxs row = .ok r := by
  obtain ⟨o1, o2⟩ := idxs
  cases o1 with
  | none => simp [cellOK] at h1
  | some i =>
    cases hg : row.get? i with
    | none =>
      simp only [cellOK, hg] at h1
      exact Bool.noConfusion h1
    | some d0 =>
      cases hv : dictGet SKILL_LEVEL_MAP (if d0 = [] then naStr else d0) with
      | none =>
        simp only [cellOK, hg, hv] at h1
        exact Bool.noConfusion h1
      | some v =>
        cases o2 with
        | none => simp [cellOK] at h2
        | some j =>
          cases hg2 : row.get? j with
          | none =>
            simp only [cellOK, hg2] at h2
            exact Bool.noConfusion h2
          | some t0 =>
            cases hv2 : dictGet SKILL_LEVEL_MAP (if t0 = [] then naStr else t0) with
            | none =>
              simp only [cellOK, hg2, hv2] at h2
              exact Bool.noConfusion h2
            | some v2 =>
              refine ⟨⟨n, c, t, cat, sub, v, if d0 = [] then naStr else d0,
                v2, if t0 = [] then naStr else t0⟩, ?_⟩
              simp only [curCellRecord, noneTypeErr, pyIndex, hg, hg2, levelLookup, hv, hv2]

theorem curSubsFold_ok_of (n c t cat : PyStr) (row : List PyStr) :
    ∀ subs : List (PyStr × Option Nat × Option Nat),
      subs.all (fun q => cellOK row q.2.1 && cellOK row q.2.2) = true →
      ∃ recs, curSubsFold n c t cat row subs = .ok recs := by
  intro subs
  induction subs with
  | nil => intro _; exact ⟨[], rfl⟩
  | cons p rest ih =>
    obtain ⟨sub0, idxs0⟩ := p
    intro hall
    rw [List.all_cons, Bool.and_eq_true] at hall
    obtain ⟨hp, hrest⟩ := hall
    rw [Bool.and_eq_true] at hp
    obtain ⟨hp1, hp2⟩ := hp
    obtain ⟨r, hr⟩ := curCellRecord_ok_of n c t cat sub0 idxs0 row hp1 hp2
    obtain ⟨more, hmore⟩ := ih hrest
    exact ⟨r :: more, by unfold curSubsFold; rw [hr, hmore]⟩

theorem curCatFold_ok_of (n c t : PyStr) (row : List PyStr) :
    ∀ curT : Dict (Dict (Option Nat × Option Nat)), curTableOK curT row = true →
      ∃ recs, curCatFold n c t row curT = .ok recs := by
  intro curT
  induction curT with
  | nil => intro _; exact ⟨[], rfl⟩
  | cons p rest ih =>
    obtain ⟨cat0, subs0⟩ := p
    intro hall
    unfold curTableOK at hall
    rw [List.all_cons, Bool.and_eq_true] at hall
    obtain ⟨hp, hrest⟩ := hall
    by_cases hskip : cat0 ∈ OTHER_COL
    · obtain ⟨recs, hre⟩ := ih hrest
      exact ⟨recs, by unfold curCatFold; rw [if_pos hskip]; exact hre⟩
    · have hsubs : subs0.all (fun q => cellOK row q.2.1 && cellOK row q.2.2) = true := by
        rw [Bool.or_eq_true] at hp
        rcases hp with hd | hs
        · exact absurd (of_decide_eq_true hd) hskip
        · exact hs
      obtain ⟨rs, hrs⟩ := curSubsFold_ok_of n c t cat0 row subs0 hsubs
      obtain ⟨more, hmore⟩ := ih hrest
      exact ⟨rs ++ more, by unfold curCatFold; rw [if_neg hskip, hrs, hmore]⟩

/-- C7: an unrecognized non-empty self-level or team-need cell (text that is
not a key of `SKILL_LEVEL_MAP`, i.e. not one of None, Novice, Intermediate,
Advanced, Expert, N/A) makes `row_to_cur_skills` raise a fatal error for that
run — a `KeyError` at the offending lookup, never a substituted default —
while a table whose recorded cells all carry recognized values (or the empty
string) makes `row_to_cur_skills` return normally. -/
theorem row_to_cur_skills_unrecognized_level :
    (∀ (common : Dict Nat) (cur : Dict (Dict (Option Nat × Option Nat)))
       (row : List PyStr) (cat : PyStr)
       (subs : List (PyStr × Option Nat × Option Nat)) (sub : PyStr)
       (i : Nat) (oj : Option Nat) (t0 : PyStr),
       (cat, subs) ∈ cur → cat ∉ OTHER_COL → (sub, (some i, oj)) ∈ subs →
       row.get? i = some t0 → t0 ≠ [] → dictGet SKILL_LEVEL_MAP t0 = none →
       ∃ e, row_to_cur_skills common cur row = .error e) ∧
    (∀ (common : Dict Nat) (cur : Dict (Dict (Option Nat × Option Nat)))
       (row : List PyStr) (cat : PyStr)
       (subs : List (PyStr × Option Nat × Option Nat)) (sub : PyStr)
       (oi : Option Nat) (j : Nat) (t0 : PyStr),
       (cat, subs) ∈ cur → cat ∉ OTHER_COL → (sub, (oi, some j)) ∈ subs →
       row.get? j = some t0 → t0 ≠ [] → dictGet SKILL_LEVEL_MAP t0 = none →
       ∃ e, row_to_cur_skills common cur row = .error e) ∧
    (∀ (common : Dict Nat) (cur : Dict (Dict (Option Nat × Option Nat)))
       (row : List PyStr), commonOK common row = true → curTableOK cur row = true →
       ∃ recs, row_to_cur_skills common cur row = .ok recs) := by
  refine ⟨?_, ?_, ?_⟩
  · intro common cur row cat subs sub i oj t0 hm hoc hsm hrow hne hmap
    exact row_to_cur_skills_member_error hm hoc hsm
      (fun n c t => ⟨.keyError, curCellRecord_self_bad hrow hne hmap⟩)
  · intro common cur row cat subs sub oi j t0 hm hoc hsm hrow hne hmap
    exact row_to_cur_skills_member_error hm hoc hsm
      (fun n c t => curCellRecord_team_bad hrow hne hmap)
  · intro common cur row hcom htab
    obtain ⟨nm, h1⟩ := commonAt_ok_of (by decide : "Name".data ∈ OTHER_COL) hcom
    obtain ⟨cl, h2⟩ :=
      commonAt_ok_of (by decide : "Classification Level".data ∈ OTHER_COL) hcom
    obtain ⟨tm, h3⟩ :=
      commonAt_ok_of (by decide : "What team are you on?".data ∈ OTHER_COL) hcom
    obtain ⟨recs, h4⟩ := curCatFold_ok_of nm cl tm row cur htab
    exact ⟨recs, by unfold row_to_cur_skills; rw [h1, h2, h3]; exact h4⟩

/-- Witness for C7: with the single mapped pair (Cloud, AWS) bound to columns
1 (SELF) and 2 (TEAM), the unrecognized text `Garbage` in either column makes
the run fail, while the recognized row `["B", "Novice", ""]` succeeds. -/
theorem row_to_cur_skills_unrecognized_level_witness :
    (∃ e, row_to_cur_skills
      [("Name".data, 0), ("Classification Level".data, 0), ("What team are you on?".data, 0)]
      [("Cloud".data, [("AWS".data, (some 1, some 2))])]
      ["B".data, "Garbage".data, "Novice".data] = .error e) ∧
    (∃ e, row_to_cur_skills
      [("Name".data, 0), ("Classification Level".data, 0), ("What team are you on?".data, 0)]
      [("Cloud".data, [("AWS".data, (some 1, some 2))])]
      ["B".data, "Novice".data, "Garbage".data] = .error e) ∧
    (∃ recs, row_to_cur_skills
      [("Name".data, 0), ("Classification Level".data, 0), ("What team are you on?".data, 0)]
      [("Cloud".data, [("AWS".data, (some 1, some 2))])]
      ["B".data, "Novice".data, []] = .ok recs) := by
  refine ⟨?_, ?_, ?_⟩
  · exact row_to_cur_skills_unrecognized_level.1 _ _ _ "Cloud".data
      [("AWS".data, (some 1, some 2))] "AWS".data 1 (some 2) "Garbage".data
      (by decide) (by decide) (by decide) (by decide) (by decide) (by decide)
  · exact row_to_cur_skills_unrecognized_level.2.1 _ _ _ "Cloud".data
      [("AWS".data, (some 1, some 2))] "AWS".data (some 1) 2 "Garbage".data
      (by decide) (by decide) (by decide) (by decide) (by decide) (by decide)
  · exact row_to_cur_skills_unrecognized_level.2.2 _ _ _ (by decide) (by decide)

/-! ## C3: `create_output` filename versioning (utilities.py) -/

/-- `f"{filename.split('.')[0]}_{version}.csv"`: the next candidate name built
by `create_output` (utilities.py line 199) — note it is derived from the
CURRENT `filename`, which the loop reassigns on every collision. -/
def nextName (filename : PyStr) (version : Nat) : PyStr :=
  filename.takeWhile (fun ch => ch ≠ '.') ++ "_".data ++ (Nat.repr version).data ++ ".csv".data

/-- The `while check_file_exists(filename) and version < 100` loop of
`create_output` (utilities.py lines 196-200), the file system abstracted to
the predicate `ex` of existing file names.  The loop body runs at most 99
times (`version` grows from 1 and the guard needs `version < 100`), so the
structural fuel of 100 is never exhausted. -/
def findName (ex : PyStr → Bool) : Nat → PyStr → Nat → PyStr × Nat
  | 0, filename, version => (filename, version)
  | fuel + 1, filename, version =>
    if ex filename ∧ version < 100 then
      findName ex fuel (nextName filename version) (version + 1)
    else (filename, version)

/-- `create_output` from utilities.py lines 181-211, restricted to its
filename-versioning behaviour: the CSV write is I/O outside the model, so the
function returns the name it would write to, or `none` for the `return 0`
give-up path (`if version >= 100`). -/
def create_output (ex : PyStr → Bool) (filename : PyStr) : Option PyStr :=
  let fv := findName ex 100 filename 1
  if fv.2 ≥ 100 then none else some fv.1

theorem findName_step {ex : PyStr → Bool} {fuel : Nat} {filename : PyStr} {version : Nat}
    (hx : ex filename = true) (hv : version < 100) :
    findName ex (fuel + 1) filename version =
      findName ex fuel (nextName filename version) (version + 1) := by
  simp only [findName]
  rw [if_pos ⟨hx, hv⟩]

theorem findName_stop {ex : PyStr → Bool} {fuel : Nat} {filename : PyStr} {version : Nat}
    (hx : ex filename = false) :
    findName ex (fuel + 1) filename version = (filename, version) := by
  unfold findName
  rw [if_neg]
  intro hcon
  exact absurd hcon.1 (by simp [hx])

theorem findName_all_true {ex : PyStr → Bool} (hall : ∀ f, ex f = true) :
    ∀ (fuel version : Nat) (filename : PyStr), 100 ≤ version + fuel →
      100 ≤ (findName ex fuel filename version).2 := by
  intro fuel
  induction fuel with
  | zero => intro version filename h; simpa using h
  | succ m ih =>
    intro version filename h
    by_cases hv : version < 100
    · rw [findName_step (hall filename) hv]
      exact ih (version + 1) _ (by omega)
    · unfold findName
      rw [if_neg (fun hc => hv hc.2)]
      omega

/-- C1-style refutation of the claimed naming scheme for C3: with
`current_skills_Platform.csv` and `current_skills_Platform_1.csv` both
existing, the third attempt writes `current_skills_Platform_1_2.csv` — the
version suffix is appended to the previous candidate name, which still carries
`_1` — and NOT the claimed `current_skills_Platform_2.csv`. -/
theorem create_output_third_attempt_cex :
    create_output (fun f => f == "current_skills_Platform.csv".data ||
        f == "current_skills_Platform_1.csv".data)
      "current_skills_Platform.csv".data = some "current_skills_Platform_1_2.csv".data ∧
    ("current_skills_Platform_1_2.csv".data : PyStr) ≠ "current_skills_Platform_2.csv".data :=
  ⟨rfl, by decide⟩

/-- C3 (amended): on a collision `create_output` appends `_version` to the
base of the CURRENT candidate name, so the suffixes accumulate —
`current_skills_Platform.csv`, then `_1.csv`, then `_1_2.csv`, … — and when
the first two names exist but the third does not, the third attempt writes
`current_skills_Platform_1_2.csv`; if every candidate exists the loop stops
after `version` reaches 100 (99 collision checks) and the function gives up,
returning 0. -/
theorem create_output_suffixes_accumulate :
    (∀ ex : PyStr → Bool,
       ex "current_skills_Platform.csv".data = true →
       ex "current_skills_Platform_1.csv".data = true →
       ex "current_skills_Platform_1_2.csv".data = false →
       create_output ex "current_skills_Platform.csv".data =
         some "current_skills_Platform_1_2.csv".data) ∧
    (∀ (ex : PyStr → Bool) (base : PyStr), (∀ f, ex f = true) →
       create_output ex base = none) := by
  constructor
  · intro ex h0 h1 h2
    have e1 : nextName "current_skills_Platform.csv".data 1 =
        "current_skills_Platform_1.csv".data := rfl
    have e2 : nextName "current_skills_Platform_1.csv".data 2 =
        "current_skills_Platform_1_2.csv".data := rfl
    have hfind : findName ex 100 "current_skills_Platform.csv".data 1 =
        ("current_skills_Platform_1_2.csv".data, 3) := by
      show findName ex (99 + 1) _ 1 = _
      rw [findName_step h0 (by norm_num), e1]
      show findName ex (98 + 1) _ 2 = _
      rw [findName_step h1 (by norm_num), e2]
      show findName ex (97 + 1) _ 3 = _
      rw [findName_stop h2]
    unfold create_output
    rw [hfind]
    rfl
  · intro ex base hall
    have h100 := findName_all_true hall 100 1 base (by omega)
    unfold create_output
    show (if (findName ex 100 base 1).2 ≥ 100 then none
          else some (findName ex 100 base 1).1) = none
    rw [if_pos h100]

/-- Witness for C3: the amended theorem applied to the concrete file system
holding exactly the base name and the first candidate, and to a file system
where every name exists. -/
theorem create_output_suffixes_accumulate_witness :
    create_output (fun f => decide (f = "current_skills_Platform.csv".data ∨
        f = "current_skills_Platform_1.csv".data))
      "current_skills_Platform.csv".data = some "current_skills_Platform_1_2.csv".data ∧
    create_output (fun f => true) "current_skills_Platform.csv".data = none := by
  constructor
  · exact create_output_suffixes_accumulate.1 _ (by decide) (by decide) (by decide)
  · exact create_output_suffixes_accumulate.2 _ _ (fun f => rfl)

/-! ## C9: `process` (process.py) -/

/-- One output record of the mad-libs composer (unreachable in `process`, see
below; present only to give `process` its documented result type). -/
structure MadRec where
  fullName : PyStr
  madLibs : PyStr
deriving DecidableEq, Repr

/-- `process` from process.py lines 176-232.  Before the row loop the source
executes `total_rows = len()` (line 195): Python's `len` takes exactly one
argument, so every call raises `TypeError` before the header row or any data
row is touched, and the whole per-row dispatch to the mad-libs,
current-skills and future-skills reshapers (lines 199-227), the final
progress print and the return of the three accumulated lists are unreachable
code. -/
def process (processes : List PyStr) (in_rows : List (List PyStr))
    (mapping : Dict (List PyStr)) :
    Except PyErr (List MadRec × List CurRec × List FutRec) :=
  .error .typeError

/-- C9 (refutation at the failing input): `process` never performs its single
pass — the `total_rows = len()` slip raises `TypeError` unconditionally, for
every process selection, row list and mapping, before the header row is read,
so the three accumulated lists are never returned. -/
theorem process_always_raises_typeError (processes : List PyStr)
    (in_rows : List (List PyStr)) (mapping : Dict (List PyStr)) :
    process processes in_rows mapping = .error .typeError := rfl
